import Mathlib

/-!
Verification of the information-extraction pipeline of the ArkAIScrape
repository (src/ai_server.py), a shallow embedding in Lean 4.

Python strings are modelled as Lean `String` values, and every string
operation used by the code (lowercasing, trimming, substring test,
replace, prefix test) is implemented here over `List Char` so that all
definitions are executable and kernel-reducible.  Python dicts with
string keys are modelled as association lists (`KVs`) whose assignment
operation overwrites in place, as dict assignment does.  Library calls
whose results the code consumes (regex `findall`/`search` matches, HTTP
responses, rendered-page scrapes) are modelled as oracle inputs; the
control flow that consumes them is translated line by line from the
source.
-/

/-! ## String primitives over `List Char` -/

/-- Prefix test on character lists. -/
def leadsWith : List Char → List Char → Bool
  | [], _ => true
  | _ :: _, [] => false
  | a :: as, b :: bs => a = b && leadsWith as bs

/-- Helper for the substring test: does `nd` occur in the given list? -/
def subAux (nd : List Char) : List Char → Bool
  | [] => leadsWith nd []
  | c :: cs => leadsWith nd (c :: cs) || subAux nd cs

/-- Model of the Python `needle in hay` substring test. -/
def isSubstr (needle hay : String) : Bool := subAux needle.data hay.data

/-- Model of Python `str.lower()` (ASCII case folding). -/
def sLower (s : String) : String := ⟨s.data.map Char.toLower⟩

/-- Model of Python `str.startswith(pre)`. -/
def sStarts (s pre : String) : Bool := leadsWith pre.data s.data

/-- The characters Python `str.strip()` and `str.split()` treat as whitespace. -/
def pyWs (c : Char) : Bool :=
  c = ' ' || c = '\t' || c = '\n' || c = '\r' || c = '\x0b' || c = '\x0c'

/-- Model of Python `str.strip()`. -/
def sTrim (s : String) : String :=
  ⟨((s.data.dropWhile pyWs).reverse.dropWhile pyWs).reverse⟩

/-- Model of Python `s[:n]` slicing. -/
def sTake (s : String) (n : Nat) : String := ⟨s.data.take n⟩

/-- Fuel-driven worker for `sReplace`; the fuel is the input length, which
always suffices because each step consumes at least one character. -/
def replaceFuel (pat rep : List Char) : Nat → List Char → List Char
  | 0, l => l
  | fuel + 1, l =>
    match l with
    | [] => []
    | c :: cs =>
      if pat ≠ [] ∧ leadsWith pat (c :: cs) then
        rep ++ replaceFuel pat rep fuel (l.drop pat.length)
      else
        c :: replaceFuel pat rep fuel cs

/-- Model of Python `s.replace(pat, rep)` (all occurrences, left to right,
non-overlapping). -/
def sReplace (s pat rep : String) : String :=
  ⟨replaceFuel pat.data rep.data s.data.length s.data⟩

/-- Model of Python `s.split(sep)[0]` for a single-character separator:
the prefix of `s` before the first occurrence of `stop`. -/
def sBefore (s : String) (stop : Char) : String :=
  ⟨s.data.takeWhile (fun c => !(c = stop : Bool))⟩

/-- Maximal runs of characters satisfying `p`, accumulator-based. -/
def runsAux (p : Char → Bool) (cur : List Char) : List Char → List (List Char)
  | [] => if cur.isEmpty then [] else [cur.reverse]
  | c :: cs =>
    if p c then runsAux p (c :: cur) cs
    else if cur.isEmpty then runsAux p [] cs
    else cur.reverse :: runsAux p [] cs

/-- Maximal runs of characters of `s` satisfying `p`, as strings. -/
def runsOf (p : Char → Bool) (s : String) : List String :=
  (runsAux p [] s.data).map List.asString

/-- A Python `\w` word character (letter, digit or underscore; ASCII model). -/
def isWordChar (c : Char) : Bool := c.isAlphanum || c = '_'

/-- Number of occurrences of `c` in `s`, modelling Python `s.count(c)`. -/
def countChar (s : String) (c : Char) : Nat :=
  (s.data.filter (fun d => (d = c : Bool))).length

/-! ## Python dicts as association lists -/

/-- A Python dict with string keys and string values. -/
abbrev KVs := List (String × String)

/-- Dict assignment `d[k] = v`: overwrite in place if the key is present,
otherwise append. -/
def dset : KVs → String → String → KVs
  | [], k, v => [(k, v)]
  | (k', v') :: rest, k, v =>
    if k' = k then (k', v) :: rest else (k', v') :: dset rest k v

/-- Dict lookup `d.get(k)`. -/
def dget : KVs → String → Option String
  | [], _ => none
  | (k', v) :: rest, k => if k' = k then some v else dget rest k

/-- Dict membership `k in d`. -/
def dmem (d : KVs) (k : String) : Bool := (dget d k).isSome

/-- Dict update `d.update(e)`: assign every entry of `e` into `d` in order. -/
def dupdate (d e : KVs) : KVs := e.foldl (fun d kv => dset d kv.1 kv.2) d

theorem dget_dset_self (d : KVs) (k v : String) : dget (dset d k v) k = some v := by
  induction d with
  | nil => simp [dset, dget]
  | cons kv rest ih =>
    obtain ⟨k', v'⟩ := kv
    by_cases h : k' = k <;> simp [dset, dget, h, ih]

theorem dget_dset_ne (d : KVs) (k k' v : String) (h : k' ≠ k) :
    dget (dset d k' v) k = dget d k := by
  induction d with
  | nil => simp [dset, dget, h]
  | cons kv rest ih =>
    obtain ⟨a, b⟩ := kv
    by_cases ha : a = k'
    · subst ha
      simp [dset, dget, h]
    · simp only [dset, if_neg ha, dget]
      by_cases hk : a = k <;> simp [hk, ih]

theorem mem_dset (d : KVs) (k v a b : String) :
    (a, b) ∈ dset d k v → (a = k ∧ b = v) ∨ (a, b) ∈ d := by
  induction d with
  | nil => simp [dset]
  | cons kv rest ih =>
    obtain ⟨k', v'⟩ := kv
    by_cases h : k' = k
    · subst h
      intro hm
      simp only [dset, if_pos rfl, if_true, eq_self_iff_true, List.mem_cons,
        Prod.mk.injEq] at hm
      tauto
    · simp only [dset, if_neg h, List.mem_cons, Prod.mk.injEq]
      intro hm
      rcases hm with ⟨ha, hb⟩ | hm
      · exact Or.inr (Or.inl ⟨ha, hb⟩)
      · rcases ih hm with h' | h'
        · exact Or.inl h'
        · exact Or.inr (Or.inr h')

/-! ## RelevanceValidator — `validate_website_relevance` (src/ai_server.py 183-206) -/

/-- The characters after the first `://` of a URL (`none` when absent). -/
def afterScheme : List Char → Option (List Char)
  | [] => none
  | c :: cs =>
    if leadsWith [':', '/', '/'] (c :: cs) then some (cs.drop 2)
    else afterScheme cs

/-- Model of `urlparse(url).netloc` for scheme-bearing URLs: the text after
the first `://` up to the first `/`, `?` or `#` (empty when no `://`). -/
def netloc (url : String) : String :=
  match afterScheme url.data with
  | some rest =>
    ⟨rest.takeWhile (fun c => !(c = '/' : Bool) && !(c = '?' : Bool) && !(c = '#' : Bool))⟩
  | none => ""

/-- The fixed generic-domain blocklist of `validate_website_relevance`. -/
def genericDomains : List String :=
  ["angel.com", "angels.com", "anchor.com", "care.com", "health.com"]

/-- The healthcare-sector keywords shared by the validator and the
domain-guess generator. -/
def healthWords : List String := ["health", "care", "medical", "hospice"]

/-- `any(hw in company_name.lower() for hw in ['health','care','medical','hospice'])`. -/
def hasHealthWord (name : String) : Bool :=
  healthWords.any (fun hw => isSubstr hw (sLower name))

/-- The significant company words of `validate_website_relevance`:
lowercased `\b\w+\b` findall tokens of length above 3
(`\b\w+\b` finds exactly the maximal runs of word characters). -/
def companySigWords (name : String) : List String :=
  ((runsOf isWordChar name).filter (fun w => w.length > 3)).map sLower

/-- Model of `validate_website_relevance` (src/ai_server.py 183-206).  The
`except` fallback to `True` is unreachable in this pure model; everything
else is a line-by-line translation. -/
def validate_website_relevance (company_name html_content url : String) : Bool :=
  let domain := sLower (netloc url)
  if domain ∈ genericDomains then false
  else
    let company_words := companySigWords company_name
    let content_lower := sLower html_content
    let nMatches := (company_words.filter (fun w => isSubstr w content_lower)).length
    let threshold := if hasHealthWord company_name then 1 else 2
    nMatches ≥ threshold

/-- Spec-side match count for the (amended) claim: how many significant
company words occur, case-insensitively, in the page text. -/
def specMatchCount (name content : String) : Nat :=
  ((companySigWords name).filter (fun w => isSubstr w (sLower content))).length

/-- Spec-side threshold: 1 when the company name has a healthcare keyword,
else 2. -/
def specThreshold (name : String) : Nat := if hasHealthWord name then 1 else 2

/-- Significant words exactly as the original claim words them: *alphabetic*
tokens longer than 3 characters (the code actually uses word characters,
which also include digits and underscores). -/
def claimAlphaSigWords (name : String) : List String :=
  ((runsOf (fun c => c.isAlpha) name).filter (fun w => w.length > 3)).map sLower

/-- The relevance predicate exactly as the original claim words it. -/
def claimRelevanceSpec (name content url : String) : Bool :=
  if sLower (netloc url) ∈ genericDomains then false
  else
    let nMatches := ((claimAlphaSigWords name).filter
      (fun w => isSubstr w (sLower content))).length
    nMatches ≥ (if hasHealthWord name then 1 else 2)

/-! ## WebsiteResolver domain-guess generation — `find_website_fallback`
(src/ai_server.py 117-161), the pure candidate-generation part -/

/-- The cleaned word list: lowercase the name, drop every character that is
not a letter, digit or whitespace, split on whitespace, and keep only
words of length above 2. -/
def companyWords (name : String) : List String :=
  let cleaned : List Char := (sLower name).data.filter (fun c => c.isAlphanum || pyWs c)
  (((runsAux (fun c => !(pyWs c)) [] cleaned).map List.asString).filter
    (fun w => w.length > 2))

/-- The `potential_domains` list built by `find_website_fallback`
(src/ai_server.py 124-150), in construction order. -/
def potentialDomains (name : String) : List String :=
  let words := companyWords name
  if words.length ≥ 1 then
    let w0 := words.headD ""
    let w1 := (words.drop 1).headD ""
    (if words.length ≥ 2 then
      [w0 ++ w1 ++ ".com", w0 ++ w1 ++ ".com", w0 ++ "-" ++ w1 ++ ".com",
       w0 ++ "-" ++ w1 ++ ".com"]
     else []) ++
    [w0 ++ ".com", w0 ++ "inc.com", w0 ++ "llc.com"] ++
    (if hasHealthWord name ∧ words.length ≥ 2 then
      [w0 ++ "health.com", w0 ++ "care.com", w0 ++ "medical.com"]
     else [])
  else []

/-- The dedup-and-filter pass of `find_website_fallback` (src/ai_server.py
152-158): keep a candidate when it was not seen before and is longer than
6 characters, preserving order. -/
def dedupeFilter (seen : List String) : List String → List String
  | [] => []
  | d :: ds =>
    if d ∉ seen ∧ d.length > 6 then d :: dedupeFilter (d :: seen) ds
    else dedupeFilter seen ds

/-- `unique_domains` of `find_website_fallback`. -/
def uniqueDomains (name : String) : List String :=
  dedupeFilter [] (potentialDomains name)

/-- The candidates actually attempted: `unique_domains[:8]`
(src/ai_server.py 161). -/
def attemptedDomains (name : String) : List String :=
  (uniqueDomains name).take 8

/-! ## ContentFetcher — `fetch_website_content` (src/ai_server.py 452-506) -/

/-- An HTTP response as the code consumes it: status code and body text. -/
structure HttpResp where
  status : Nat
  body : String

/-- The body-acceptance test of `fetch_website_content`:
length above 500 and a lowered body containing the `<html` token. -/
def htmlBodyOk (body : String) : Bool :=
  body.length > 500 && isSubstr "<html" (sLower body)

/-- Model of `fetch_website_content` (src/ai_server.py 452-506) over an HTTP
oracle `http` mapping a requested URL to either a raised exception
(`Except.error`) or a response.  No scheme: try `https://` then `http://`,
falling through on any failure; with a scheme: use the URL as given.
Every failure path returns the empty string. -/
def fetch_website_content (url : String) (http : String → Except String HttpResp) : String :=
  if sStarts url "http://" || sStarts url "https://" then
    match http url with
    | Except.error _ => ""
    | Except.ok r =>
      if r.status = 200 then
        if htmlBodyOk r.body then r.body else ""
      else ""
  else
    match http ("https://" ++ url) with
    | Except.ok r =>
      if r.status = 200 && htmlBodyOk r.body then r.body
      else
        match http ("http://" ++ url) with
        | Except.ok r' => if r'.status = 200 && htmlBodyOk r'.body then r'.body else ""
        | Except.error _ => ""
    | Except.error _ =>
      match http ("http://" ++ url) with
      | Except.ok r' => if r'.status = 200 && htmlBodyOk r'.body then r'.body else ""
      | Except.error _ => ""

/-- Spec-side view of one fetch attempt: `some body` when the response is a
success whose body passes the HTML validation, `none` otherwise. -/
def attemptOk (http : String → Except String HttpResp) (u : String) : Option String :=
  match http u with
  | Except.error _ => none
  | Except.ok r => if r.status = 200 && htmlBodyOk r.body then some r.body else none

/-- First-of-two combinator used to state the protocol order of the claim. -/
def optOr (a b : Option String) : Option String :=
  match a with
  | some x => some x
  | none => b

/-! ## TextHeuristics — `extract_company_info_with_ai` (src/ai_server.py 275-345)
with its helpers `_extract_address_info` (347-390), `_extract_contact_person`
(392-425) and `_extract_location_info` (427-450).

The regex library calls inside these heuristics are modelled as oracle
inputs (`ExtractOracles`): each field of the structure is the list of
matches the corresponding `re.findall`/`re.search` call returns, in order.
All the selection, filtering, formatting and dict-building logic that the
source performs on those matches is translated concretely. -/

/-- One text block found near an address-indicator keyword in strategy 2 of
`_extract_address_info`, with the results of the three `re.search` calls
run on it (zip, state, street). -/
structure AddrSec where
  zipM : Option String
  stateM : Option String
  streetM : Option String

/-- The oracle inputs of one `extract_company_info_with_ai` run. -/
structure ExtractOracles where
  /-- `re.findall(pattern, text_content)` for each of the three phone
  patterns, in order; each match is a 3-tuple of captured groups. -/
  phoneMatches : List (List (String × String × String))
  /-- `re.findall(email_pattern, text_content)`. -/
  emailMatches : List String
  /-- The `href` attribute of every anchor element, in document order. -/
  hrefs : List String
  /-- `re.findall` results for the first structured address pattern. -/
  addr1 : List (String × String × String × String)
  /-- `re.findall` results for the second structured address pattern. -/
  addr2 : List (String × String × String × String)
  /-- The indicator-keyword text blocks of address strategy 2, in order. -/
  addrSecs : List AddrSec
  /-- For each contact-indicator text block, the `re.findall` name lists of
  the three name patterns, in order. -/
  contactBlocks : List (List (List String))
  /-- `re.findall` results for each of the three city/state patterns. -/
  cityState : List (List (String × String))

/-- The phone-selection loop of `extract_company_info_with_ai`
(src/ai_server.py 289-298): take the first match of the first pattern that
has matches; if its formatted form starts with a placeholder area code the
`break` is skipped and the loop moves on to the next pattern. -/
def extractPhone : List (List (String × String × String)) → Option String
  | [] => none
  | l :: rest =>
    match l with
    | [] => extractPhone rest
    | m :: _ =>
      let phone := "(" ++ m.1 ++ ") " ++ m.2.1 ++ "-" ++ m.2.2
      if sStarts phone "(000)" || sStarts phone "(111)" || sStarts phone "(123)" ||
         sStarts phone "(555)" then extractPhone rest
      else some phone

/-- The phone section as a dict transformer. -/
def phoneStage (ms : List (List (String × String × String))) (info : KVs) : KVs :=
  match extractPhone ms with
  | some p => dset info "phone_number" p
  | none => info

/-- The noise substrings discarded by the email filter (src/ai_server.py 307-311). -/
def emailSkip : List String :=
  ["noreply", "no-reply", "donotreply", "newsletter", "unsubscribe",
   "support@example", "test@", "example@", "admin@example",
   "webmaster@", "postmaster@", "abuse@"]

/-- The preferred-address keywords of the email filter (src/ai_server.py 316). -/
def emailPref : List String := ["contact", "info", "hello", "office"]

/-- The email section of `extract_company_info_with_ai`
(src/ai_server.py 300-317). -/
def emailStage (emails : List String) (info : KVs) : KVs :=
  if emails.isEmpty then info
  else
    let filtered := emails.filter
      (fun e => !(emailSkip.any (fun sk => isSubstr sk (sLower e))))
    if filtered.isEmpty then info
    else
      let priority := filtered.filter
        (fun e => emailPref.any (fun w => isSubstr w (sLower e)))
      dset info "public_email" (priority.headD (filtered.headD ""))

/-- `href.split('?')[0].split('#')[0]`. -/
def cleanUrl (href : String) : String := sBefore (sBefore href '?') '#'

/-- The Facebook branch condition of the social-link loop:
the lowered href contains `facebook.com` and contains none of the four
skip fragments (pages, groups, sharer, login paths). -/
def fbLinkCond (h : String) : Bool :=
  isSubstr "facebook.com" h &&
  !(isSubstr "/pages/" h || isSubstr "/groups/" h || isSubstr "/sharer" h ||
    isSubstr "/login" h)

/-- The LinkedIn branch condition of the social-link loop. -/
def liLinkCond (h : String) : Bool :=
  isSubstr "linkedin.com/company" h || isSubstr "linkedin.com/in" h

/-- One iteration of the social-media link loop of
`extract_company_info_with_ai` (src/ai_server.py 320-330). -/
def socialStep (info : KVs) (href : String) : KVs :=
  let h := sLower href
  if fbLinkCond h then
    let fb_url := cleanUrl h
    if countChar fb_url '/' ≥ 3 then dset info "facebook_page" fb_url else info
  else if liLinkCond h then
    dset info "linkedin_page" (cleanUrl h)
  else info

/-- The social-media link loop over all anchors, in document order. -/
def socialStage (info : KVs) (hrefs : List String) : KVs :=
  hrefs.foldl socialStep info

/-- Strategy-1 field fill of `_extract_address_info` (src/ai_server.py 360-366). -/
def addrSet4 (info : KVs) (m : String × String × String × String) : KVs :=
  dset (dset (dset (dset info "street_address" (sTrim m.1)) "city" (sTrim m.2.1))
    "state" (sTrim m.2.2.1)) "zip_code" (sTrim m.2.2.2)

/-- One indicator-block step of strategy 2 of `_extract_address_info`
(src/ai_server.py 369-388): fill zip, state and street independently, each
only when not already present. -/
def addrSecStep (info : KVs) (sec : AddrSec) : KVs :=
  let info1 := match sec.zipM with
    | some z => if !(dmem info "zip_code") then dset info "zip_code" z else info
    | none => info
  let info2 := match sec.stateM with
    | some st => if !(dmem info1 "state") then dset info1 "state" st else info1
    | none => info1
  match sec.streetM with
  | some st => if !(dmem info2 "street_address") then
      dset info2 "street_address" (sTrim st) else info2
  | none => info2

/-- `_extract_address_info` (src/ai_server.py 347-390): first structured
pattern with matches wins and fills all four fields; otherwise the
indicator-block scan fills fields independently. -/
def addrStage (o1 o2 : List (String × String × String × String))
    (secs : List AddrSec) (info : KVs) : KVs :=
  match o1 with
  | m :: _ => addrSet4 info m
  | [] =>
    match o2 with
    | m :: _ => addrSet4 info m
    | [] => secs.foldl addrSecStep info

/-- The company-noise words that disqualify candidate contact names
(src/ai_server.py 419). -/
def contactNoise : List String :=
  ["home", "care", "health", "services", "medical", "company"]

/-- The per-block pattern loop of `_extract_contact_person`: the first
pattern whose match list, after the noise filter, is non-empty wins. -/
def contactFindBlock : List (List String) → Option String
  | [] => none
  | names :: rest =>
    if names.isEmpty then contactFindBlock rest
    else
      let valid := names.filter
        (fun n => !(contactNoise.any (fun w => isSubstr w (sLower n))))
      match valid with
      | v :: _ => some v
      | [] => contactFindBlock rest

/-- The block loop of `_extract_contact_person` (src/ai_server.py 392-425). -/
def contactFind : List (List (List String)) → Option String
  | [] => none
  | block :: rest =>
    match contactFindBlock block with
    | some n => some n
    | none => contactFind rest

/-- `_extract_contact_person` as a dict transformer. -/
def contactStage (blocks : List (List (List String))) (info : KVs) : KVs :=
  match contactFind blocks with
  | some n => dset info "contact_person" n
  | none => info

/-- The pattern loop of `_extract_location_info` (src/ai_server.py 440-448):
the first pattern with matches contributes its first match and breaks. -/
def locLoop : List (List (String × String)) → KVs → KVs
  | [], info => info
  | ms :: rest, info =>
    match ms with
    | [] => locLoop rest info
    | (city, state) :: _ =>
      let info1 := if !(dmem info "city") ∧ city.length > 2 then
        dset info "city" (sTrim city) else info
      if !(dmem info1 "state") then dset info1 "state" (sTrim state) else info1

/-- `_extract_location_info` (src/ai_server.py 427-450). -/
def locationStage (pats : List (List (String × String))) (info : KVs) : KVs :=
  if !(dmem info "city") || !(dmem info "state") then locLoop pats info else info

/-- `extract_company_info_with_ai` (src/ai_server.py 275-345): the six
sub-extractions applied in source order to the initially empty dict. -/
def extract_company_info_with_ai (o : ExtractOracles) : KVs :=
  locationStage o.cityState
    (contactStage o.contactBlocks
      (addrStage o.addr1 o.addr2 o.addrSecs
        (socialStage (emailStage o.emailMatches (phoneStage o.phoneMatches [])) o.hrefs)))

/-! ## SocialProfileExtractor — `extract_facebook_from_url` (src/ai_server.py
1053-1073) and `extract_facebook_info` (508-701) -/

/-- Model of Python `str.title()`: an alphabetic character is uppercased
when the previous character is not alphabetic, lowercased otherwise. -/
def pyTitleAux : Bool → List Char → List Char
  | _, [] => []
  | prevAlpha, c :: cs =>
    (if c.isAlpha then (if prevAlpha then c.toLower else c.toUpper) else c)
      :: pyTitleAux c.isAlpha cs

/-- Model of Python `str.title()`. -/
def pyTitle (s : String) : String := ⟨pyTitleAux false s.data⟩

/-- `page_name.replace(' ', '').isalnum()` in `extract_facebook_from_url`:
Python `isalnum` demands a non-empty string of alphanumerics. -/
def slugAlnumOk (page_name : String) : Bool :=
  let t := sReplace page_name " " ""
  !(t.data.isEmpty) && t.data.all Char.isAlphanum

/-- `extract_facebook_from_url` (src/ai_server.py 1053-1073): derive a page
name from the URL slug.  Pure translation; its internal `except` is
unreachable here. -/
def extract_facebook_from_url (facebook_url : String) : KVs :=
  let u1 := sReplace (sReplace (sReplace facebook_url "https://" "") "http://" "") "www." ""
  let u2 := sReplace u1 "facebook.com/" ""
  let url_parts := sBefore (sBefore u2 '/') '?'
  if url_parts ≠ "" ∧ url_parts ∉ ["profile.php", "pages", "people"] then
    let page_name := pyTitle (sReplace (sReplace url_parts "-" " ") "." " ")
    if page_name.length > 2 ∧ slugAlnumOk page_name then
      [("facebook_page_name", page_name)]
    else []
  else []

/-- The rendered-page observations `extract_facebook_info` consumes once
the browser has loaded the page.  Each field is what the corresponding
selenium/regex call would deliver; `none` models both an absent element
and a read that raised (each such read is wrapped in its own `try`). -/
structure FbScrape where
  /-- `self.driver.title`. -/
  title : String
  /-- The body text, `none` when reading it raised. -/
  bodyText : Option String
  /-- The `content` attribute of the first `og:title` meta tag. -/
  ogTitle : Option String
  /-- The `content` attribute of the first `og:description` meta tag. -/
  ogDesc : Option String
  /-- The text of the `h1` elements, in order. -/
  h1s : List String
  /-- The first number-pattern match found across the like/follower
  elements (strategy 3), if any. -/
  likeMatch : Option String
  /-- The texts of the about-selector elements (strategy 4), in order. -/
  aboutTexts : List String

/-- The login-page titles detected at src/ai_server.py 548. -/
def fbLoginTitle (title : String) : Bool :=
  isSubstr "Log into Facebook" title || isSubstr "Facebook – log in" title ||
  isSubstr "Facebook - log in" title

/-- `extract_facebook_info` (src/ai_server.py 508-701).  The result dict is
initialised with the three keys mapped to empty strings; a missing URL
returns it as is; an unavailable browser, a navigation error or a login
wall fall back to `extract_facebook_from_url`; otherwise the meta-tag,
title/h1, likes and about strategies fill the fields, and the URL fallback
is merged in when no name was found.  Every path returns a dict — the
function never raises. -/
def extract_facebook_info (facebook_url : String) (driverOk : Bool)
    (scrape : Except String FbScrape) : KVs :=
  let result0 : KVs :=
    [("facebook_page_name", ""), ("facebook_likes", ""), ("facebook_about", "")]
  if facebook_url = "" then result0
  else if !driverOk then extract_facebook_from_url facebook_url
  else
    match scrape with
    | Except.error _ => extract_facebook_from_url facebook_url
    | Except.ok s =>
      if fbLoginTitle s.title then extract_facebook_from_url facebook_url
      else if (match s.bodyText with
               | some b => isSubstr "You must log in" b || isSubstr "See more of" b
               | none => false) then extract_facebook_from_url facebook_url
      else
        let name1 := match s.ogTitle with
          | some c => if sTrim c ≠ "" then sTrim c else ""
          | none => ""
        let about1 := match s.ogDesc with
          | some c => if sTrim c ≠ "" ∧ (sTrim c).length > 10 then sTake (sTrim c) 300
                      else ""
          | none => ""
        let name2 :=
          if name1 = "" then
            let ct := sTrim (sReplace (sReplace s.title " | Facebook" "") " - Facebook" "")
            let nct := if ct ≠ "" ∧ ct ≠ "Facebook" then ct else ""
            match s.h1s.find? (fun h => sTrim h ≠ "" ∧ (sTrim h).length < 100) with
            | some h => sTrim h
            | none => nct
          else name1
        let likes := match s.likeMatch with
          | some m => m ++ " likes"
          | none => ""
        let about2 :=
          if about1 = "" then
            match s.aboutTexts.find? (fun t => sTrim t ≠ "" ∧ (sTrim t).length > 20) with
            | some t => sTake (sTrim t) 300
            | none => ""
          else about1
        let result : KVs :=
          [("facebook_page_name", name2), ("facebook_likes", likes),
           ("facebook_about", about2)]
        if name2 = "" then dupdate result (extract_facebook_from_url facebook_url)
        else result

/-! ## Exception-flow skeleton of `extract_company_info_with_ai` for
fault-injection reasoning (src/ai_server.py 275-345).

A stage is a dict transformer that either completes (`Sum.inl`) or raises
partway leaving the dict in an intermediate state (`Sum.inr` — Python
mutates `info` in place, so work done before the exception is visible in
the carried state).  The phone/email/social sections run inside the
single enclosing handler of the function, which returns the empty dict; each of
the three helper sub-extractors has its own internal `try/except pass`
that absorbs the fault and keeps the state. -/

/-- Run a helper sub-extractor: its own `except Exception: pass` absorbs a
fault, keeping whatever state the stage had built. -/
def absorbStage (f : KVs → KVs ⊕ KVs) (d : KVs) : KVs :=
  match f d with
  | Sum.inl d' => d'
  | Sum.inr d' => d'

/-- The exception-flow skeleton of `extract_company_info_with_ai`: inline
sections (phone, email, social) abort the whole function to `{}` when they
raise; helper sections (address, contact, location) absorb their faults. -/
def extract_info_faults (pS eS sS aS cS lS : KVs → KVs ⊕ KVs) : KVs :=
  match pS [] with
  | Sum.inr _ => []
  | Sum.inl d1 =>
    match eS d1 with
    | Sum.inr _ => []
    | Sum.inl d2 =>
      match sS d2 with
      | Sum.inr _ => []
      | Sum.inl d3 => absorbStage lS (absorbStage cS (absorbStage aS d3))

/-! ## CompanyRecord — the `CompanyData` pydantic model (src/ai_server.py
35-52) and the pipeline `process_company` (1075-1117) -/

/-- The `CompanyData` record.  `processing_time` is a rational modelling the
Python float. -/
structure CompanyData where
  company_name : String := ""
  website : String := ""
  phone_number : String := ""
  street_address : String := ""
  city : String := ""
  state : String := ""
  zip_code : String := ""
  facebook_page : String := ""
  facebook_page_name : String := ""
  facebook_likes : String := ""
  facebook_about : String := ""
  linkedin_page : String := ""
  public_email : String := ""
  contact_person : String := ""
  processing_time : ℚ := 0
  status : String := ""
  last_updated : String := ""

/-- The string-valued fields of `CompanyData`, used to quantify over record
fields in merge statements. -/
inductive CField
  | company_name | website | phone_number | street_address | city | state
  | zip_code | facebook_page | facebook_page_name | facebook_likes
  | facebook_about | linkedin_page | public_email | contact_person
  | status | last_updated
deriving DecidableEq

/-- Read a string field. -/
def getF (cd : CompanyData) : CField → String
  | CField.company_name => cd.company_name
  | CField.website => cd.website
  | CField.phone_number => cd.phone_number
  | CField.street_address => cd.street_address
  | CField.city => cd.city
  | CField.state => cd.state
  | CField.zip_code => cd.zip_code
  | CField.facebook_page => cd.facebook_page
  | CField.facebook_page_name => cd.facebook_page_name
  | CField.facebook_likes => cd.facebook_likes
  | CField.facebook_about => cd.facebook_about
  | CField.linkedin_page => cd.linkedin_page
  | CField.public_email => cd.public_email
  | CField.contact_person => cd.contact_person
  | CField.status => cd.status
  | CField.last_updated => cd.last_updated

/-- Write a string field. -/
def setF (cd : CompanyData) : CField → String → CompanyData
  | CField.company_name, v => { cd with company_name := v }
  | CField.website, v => { cd with website := v }
  | CField.phone_number, v => { cd with phone_number := v }
  | CField.street_address, v => { cd with street_address := v }
  | CField.city, v => { cd with city := v }
  | CField.state, v => { cd with state := v }
  | CField.zip_code, v => { cd with zip_code := v }
  | CField.facebook_page, v => { cd with facebook_page := v }
  | CField.facebook_page_name, v => { cd with facebook_page_name := v }
  | CField.facebook_likes, v => { cd with facebook_likes := v }
  | CField.facebook_about, v => { cd with facebook_about := v }
  | CField.linkedin_page, v => { cd with linkedin_page := v }
  | CField.public_email, v => { cd with public_email := v }
  | CField.contact_person, v => { cd with contact_person := v }
  | CField.status, v => { cd with status := v }
  | CField.last_updated, v => { cd with last_updated := v }

/-- The attribute name of each field. -/
def fname : CField → String
  | CField.company_name => "company_name"
  | CField.website => "website"
  | CField.phone_number => "phone_number"
  | CField.street_address => "street_address"
  | CField.city => "city"
  | CField.state => "state"
  | CField.zip_code => "zip_code"
  | CField.facebook_page => "facebook_page"
  | CField.facebook_page_name => "facebook_page_name"
  | CField.facebook_likes => "facebook_likes"
  | CField.facebook_about => "facebook_about"
  | CField.linkedin_page => "linkedin_page"
  | CField.public_email => "public_email"
  | CField.contact_person => "contact_person"
  | CField.status => "status"
  | CField.last_updated => "last_updated"

/-- The field, if any, whose attribute name is `s` — the model of
`hasattr(company_data, key)` for the merge loop.  The numeric field
`processing_time` is omitted: a merged value for that key would be
overwritten by the final timing assignment in `process_company`, so
omitting it is output-equivalent. -/
def fieldTable : List (String × CField) :=
  [("company_name", CField.company_name), ("website", CField.website),
   ("phone_number", CField.phone_number), ("street_address", CField.street_address),
   ("city", CField.city), ("state", CField.state), ("zip_code", CField.zip_code),
   ("facebook_page", CField.facebook_page),
   ("facebook_page_name", CField.facebook_page_name),
   ("facebook_likes", CField.facebook_likes),
   ("facebook_about", CField.facebook_about),
   ("linkedin_page", CField.linkedin_page), ("public_email", CField.public_email),
   ("contact_person", CField.contact_person), ("status", CField.status),
   ("last_updated", CField.last_updated)]

/-- Find the field named `s` in the table. -/
def fieldOfName (s : String) : Option CField :=
  (fieldTable.find? (fun p => p.1 = s)).map Prod.snd

/-- The merge loop of `process_company` (src/ai_server.py 1096-1098 and
1102-1104): `for key, value in info.items(): if hasattr(company_data, key)
and value: setattr(company_data, key, str(value))`. -/
def mergeInfo (cd : CompanyData) (kvs : KVs) : CompanyData :=
  kvs.foldl
    (fun cd kv =>
      match fieldOfName kv.1 with
      | some f => if kv.2 ≠ "" then setF cd f kv.2 else cd
      | none => cd)
    cd

/-- Model of `round(x, 2)` on the elapsed time (rational rounding in place
of the float rounding Python uses). -/
def round2 (q : ℚ) : ℚ := ((round (q * 100) : ℤ) : ℚ) / 100

/-- The website used after the resolution step: the input website when
non-empty, otherwise the outcome of `find_company_website`. -/
def effResolve (website : String) (resolveStep : Except String String) :
    Except String String :=
  if website = "" then resolveStep else Except.ok website

/-- `process_company` (src/ai_server.py 1075-1117).  The awaited collaborator
calls inside the `try` are oracle inputs: `resolveStep` is the outcome of
`find_company_website`, `fetchStep` of `fetch_website_content`, and
`baseStep` of `extract_company_info_with_ai`; each may raise
(`Except.error`), in which case the top-level `except` records
`"Error: <message>"` on the record state built so far.  The Facebook step
calls the modelled `extract_facebook_info`, which never raises; its
rendered-page inputs are the oracles `driverOk` and `scrape`.  `elapsed`
is the wall-clock time measured by the closing `time.time() - start_time`. -/
def process_company (name website ts : String)
    (resolveStep : Except String String)
    (fetchStep : String → Except String String)
    (baseStep : String → String → Except String KVs)
    (driverOk : Bool) (scrape : String → Except String FbScrape)
    (elapsed : ℚ) : CompanyData :=
  let cd0 : CompanyData := { company_name := name, website := website, last_updated := ts }
  let cd :=
    match effResolve website resolveStep with
    | Except.error m => { cd0 with status := "Error: " ++ m }
    | Except.ok w =>
      -- when the input website is non-empty, `w` equals it and this
      -- assignment is the identity; when it is empty this is the
      -- `company_data.website = website` line
      let cd1 := { cd0 with website := w }
      if w = "" then { cd1 with status := "Website not found" }
      else
        match fetchStep w with
        | Except.error m => { cd1 with status := "Error: " ++ m }
        | Except.ok html =>
          if html = "" then { cd1 with status := "Could not fetch website content" }
          else
            match baseStep w html with
            | Except.error m => { cd1 with status := "Error: " ++ m }
            | Except.ok info =>
              let cd2 := mergeInfo cd1 info
              let cd3 :=
                if cd2.facebook_page = "" then cd2
                else mergeInfo cd2
                  (extract_facebook_info cd2.facebook_page driverOk
                    (scrape cd2.facebook_page))
              { cd3 with status := "Success" }
  { cd with processing_time := round2 elapsed }

/-! ## Helper lemmas about fields and merging -/

theorem getF_setF_self (cd : CompanyData) (f : CField) (v : String) :
    getF (setF cd f v) f = v := by
  cases f <;> rfl

theorem getF_setF_ne (cd : CompanyData) (f g : CField) (v : String) (h : f ≠ g) :
    getF (setF cd g v) f = getF cd f := by
  cases f <;> cases g <;> first
    | exact absurd rfl h
    | rfl

theorem fieldOfName_fname (f : CField) : fieldOfName (fname f) = some f := by
  cases f <;> rfl

theorem fieldTable_name_eq : ∀ p ∈ fieldTable, p.1 = fname p.2 := by decide

theorem fieldOfName_eq_fname (s : String) (f : CField) (h : fieldOfName s = some f) :
    s = fname f := by
  unfold fieldOfName at h
  cases hfind : fieldTable.find? (fun p => p.1 = s) with
  | none => rw [hfind] at h; cases h
  | some p =>
    rw [hfind] at h
    have hp : p.2 = f := by cases h; rfl
    have hpred := List.find?_some hfind
    have hmem := List.mem_of_find?_eq_some hfind
    have hs : p.1 = s := by simpa using hpred
    rw [← hs, ← hp]
    exact fieldTable_name_eq p hmem

/-- If every entry of `kvs` at the attribute name of `F` has an empty value,
the merge leaves `F` unchanged. -/
theorem mergeInfo_pres_of_empty (kvs : KVs) (cd : CompanyData) (F : CField)
    (h : ∀ v, (fname F, v) ∈ kvs → v = "") :
    getF (mergeInfo cd kvs) F = getF cd F := by
  induction kvs generalizing cd with
  | nil => rfl
  | cons kv rest ih =>
    have hrest : ∀ v, (fname F, v) ∈ rest → v = "" := fun v hv =>
      h v (List.mem_cons_of_mem _ hv)
    obtain ⟨k, v⟩ := kv
    show getF (mergeInfo (match fieldOfName k with
      | some f => if v ≠ "" then setF cd f v else cd
      | none => cd) rest) F = getF cd F
    cases hf : fieldOfName k with
    | none => simpa using ih cd hrest
    | some g =>
      by_cases hv : v = ""
      · simp only [hv, ne_eq, not_true_eq_false, if_false]
        simpa using ih cd hrest
      · simp only [ne_eq, hv, not_false_eq_true, if_true]
        by_cases hg : F = g
        · subst hg
          have : k = fname F := fieldOfName_eq_fname k F hf
          exact absurd (h v (this ▸ List.mem_cons_self _ _)) hv
        · rw [ih (setF cd g v) hrest]
          exact getF_setF_ne cd F g v hg

/-- If no entry of `kvs` has the attribute name of `F` at all, the merge
leaves `F` unchanged. -/
theorem mergeInfo_pres_of_absent (kvs : KVs) (cd : CompanyData) (F : CField)
    (h : ∀ v, (fname F, v) ∉ kvs) :
    getF (mergeInfo cd kvs) F = getF cd F :=
  mergeInfo_pres_of_empty kvs cd F (fun v hv => absurd hv (h v))

/-- Every value the merge loop actually writes is non-empty: a field that
changed dropped its old value for a non-empty one. -/
theorem mergeInfo_writes_nonempty (kvs : KVs) (cd : CompanyData) (F : CField)
    (h : getF (mergeInfo cd kvs) F ≠ getF cd F) :
    getF (mergeInfo cd kvs) F ≠ "" := by
  induction kvs generalizing cd with
  | nil => exact absurd rfl h
  | cons kv rest ih =>
    obtain ⟨k, v⟩ := kv
    have hstep : mergeInfo cd ((k, v) :: rest) = mergeInfo
        (match fieldOfName k with
         | some f => if v ≠ "" then setF cd f v else cd
         | none => cd) rest := rfl
    cases hf : fieldOfName k with
    | none =>
      rw [hstep, hf] at h ⊢
      exact ih cd h
    | some g =>
      by_cases hv : v = ""
      · rw [hstep, hf] at h ⊢
        simp only [hv, ne_eq, not_true_eq_false, if_false] at h ⊢
        exact ih cd h
      · rw [hstep, hf] at h ⊢
        simp only [ne_eq, hv, not_false_eq_true, if_true] at h ⊢
        by_cases hch : getF (mergeInfo (setF cd g v) rest) F = getF (setF cd g v) F
        · rw [hch]
          by_cases hg : F = g
          · subst hg
            rw [getF_setF_self]
            exact hv
          · rw [getF_setF_ne cd F g v hg]
            rw [hch, getF_setF_ne cd F g v hg] at h
            exact absurd rfl h
        · exact ih (setF cd g v) hch

/-! ## Spec-side descriptions of the social-link loop -/

/-- The *last* anchor whose lowered href qualifies for `facebook_page`,
already stripped of query and fragment.  This is the amended-claim
description of the loop, which overwrites on every qualifying link. -/
def lastFb : List String → Option String
  | [] => none
  | href :: t =>
    match lastFb t with
    | some u => some u
    | none =>
      let h := sLower href
      if fbLinkCond h ∧ countChar (cleanUrl h) '/' ≥ 3 then some (cleanUrl h)
      else none

/-- The *last* anchor whose lowered href qualifies for `linkedin_page`
(the Facebook branch must not have captured it), stripped. -/
def lastLi : List String → Option String
  | [] => none
  | href :: t =>
    match lastLi t with
    | some u => some u
    | none =>
      let h := sLower href
      if !(fbLinkCond h) ∧ liLinkCond h then some (cleanUrl h)
      else none

/-- The *first* qualifying Facebook link — the description the original
claim gives. -/
def firstFb : List String → Option String
  | [] => none
  | href :: t =>
    let h := sLower href
    if fbLinkCond h ∧ countChar (cleanUrl h) '/' ≥ 3 then some (cleanUrl h)
    else firstFb t

/-! ## Stage preservation lemmas -/

theorem dget_phoneStage (ms : List (List (String × String × String))) (info : KVs)
    (k : String) (h : k ≠ "phone_number") :
    dget (phoneStage ms info) k = dget info k := by
  unfold phoneStage
  cases extractPhone ms with
  | none => rfl
  | some p => exact dget_dset_ne info k "phone_number" p (fun he => h he.symm)

theorem dget_emailStage (emails : List String) (info : KVs) (k : String)
    (h : k ≠ "public_email") :
    dget (emailStage emails info) k = dget info k := by
  unfold emailStage
  by_cases h1 : emails.isEmpty
  · simp [h1]
  · simp only [h1, Bool.false_eq_true, if_false]
    by_cases h2 : (emails.filter
        (fun e => !(emailSkip.any (fun sk => isSubstr sk (sLower e))))).isEmpty
    · simp [h2]
    · simp only [h2, Bool.false_eq_true, if_false]
      exact dget_dset_ne _ k _ _ (fun he => absurd he.symm h)

theorem dget_socialStep (info : KVs) (href : String) (k : String)
    (hfb : k ≠ "facebook_page") (hli : k ≠ "linkedin_page") :
    dget (socialStep info href) k = dget info k := by
  unfold socialStep
  by_cases h1 : fbLinkCond (sLower href)
  · simp only [h1, if_true]
    by_cases h2 : countChar (cleanUrl (sLower href)) '/' ≥ 3
    · simp only [h2, if_pos]
      exact dget_dset_ne _ k _ _ (fun he => absurd he.symm hfb)
    · simp [h2]
  · simp only [h1, Bool.false_eq_true, if_false]
    by_cases h2 : liLinkCond (sLower href)
    · simp only [h2, if_true]
      exact dget_dset_ne _ k _ _ (fun he => absurd he.symm hli)
    · simp [h2]

theorem dget_socialStage (hrefs : List String) (info : KVs) (k : String)
    (hfb : k ≠ "facebook_page") (hli : k ≠ "linkedin_page") :
    dget (socialStage info hrefs) k = dget info k := by
  induction hrefs generalizing info with
  | nil => rfl
  | cons href t ih =>
    show dget (socialStage (socialStep info href) t) k = dget info k
    rw [ih (socialStep info href), dget_socialStep info href k hfb hli]

theorem dget_addrSet4 (info : KVs) (m : String × String × String × String)
    (k : String) (h1 : k ≠ "street_address") (h2 : k ≠ "city") (h3 : k ≠ "state")
    (h4 : k ≠ "zip_code") :
    dget (addrSet4 info m) k = dget info k := by
  unfold addrSet4
  rw [dget_dset_ne _ k _ _ (fun he => absurd he.symm h4),
      dget_dset_ne _ k _ _ (fun he => absurd he.symm h3),
      dget_dset_ne _ k _ _ (fun he => absurd he.symm h2),
      dget_dset_ne _ k _ _ (fun he => absurd he.symm h1)]

theorem dget_addrSecStep (info : KVs) (sec : AddrSec) (k : String)
    (h1 : k ≠ "street_address") (h3 : k ≠ "state") (h4 : k ≠ "zip_code") :
    dget (addrSecStep info sec) k = dget info k := by
  unfold addrSecStep
  have step1 : ∀ i : KVs, dget (match sec.zipM with
      | some z => if !(dmem i "zip_code") then dset i "zip_code" z else i
      | none => i) k = dget i k := by
    intro i
    cases sec.zipM with
    | none => rfl
    | some z =>
      by_cases hm : dmem i "zip_code"
      · simp [hm]
      · simp only [hm, Bool.not_false, if_true]
        exact dget_dset_ne _ k _ _ (fun he => absurd he.symm h4)
  have step2 : ∀ i : KVs, dget (match sec.stateM with
      | some st => if !(dmem i "state") then dset i "state" st else i
      | none => i) k = dget i k := by
    intro i
    cases sec.stateM with
    | none => rfl
    | some st =>
      by_cases hm : dmem i "state"
      · simp [hm]
      · simp only [hm, Bool.not_false, if_true]
        exact dget_dset_ne _ k _ _ (fun he => absurd he.symm h3)
  have step3 : ∀ i : KVs, dget (match sec.streetM with
      | some st => if !(dmem i "street_address") then dset i "street_address" (sTrim st)
                   else i
      | none => i) k = dget i k := by
    intro i
    cases sec.streetM with
    | none => rfl
    | some st =>
      by_cases hm : dmem i "street_address"
      · simp [hm]
      · simp only [hm, Bool.not_false, if_true]
        exact dget_dset_ne _ k _ _ (fun he => absurd he.symm h1)
  rw [step3, step2, step1]

theorem dget_addrStage (o1 o2 : List (String × String × String × String))
    (secs : List AddrSec) (info : KVs) (k : String)
    (h1 : k ≠ "street_address") (h2 : k ≠ "city") (h3 : k ≠ "state")
    (h4 : k ≠ "zip_code") :
    dget (addrStage o1 o2 secs info) k = dget info k := by
  unfold addrStage
  cases o1 with
  | cons m t => exact dget_addrSet4 info m k h1 h2 h3 h4
  | nil =>
    cases o2 with
    | cons m t => exact dget_addrSet4 info m k h1 h2 h3 h4
    | nil =>
      induction secs generalizing info with
      | nil => rfl
      | cons sec t ih =>
        show dget (t.foldl addrSecStep (addrSecStep info sec)) k = dget info k
        rw [ih (addrSecStep info sec), dget_addrSecStep info sec k h1 h3 h4]

theorem dget_contactStage (blocks : List (List (List String))) (info : KVs)
    (k : String) (h : k ≠ "contact_person") :
    dget (contactStage blocks info) k = dget info k := by
  unfold contactStage
  cases contactFind blocks with
  | none => rfl
  | some n => exact dget_dset_ne _ k _ _ (fun he => absurd he.symm h)

theorem dget_locLoop (pats : List (List (String × String))) (info : KVs)
    (k : String) (h2 : k ≠ "city") (h3 : k ≠ "state") :
    dget (locLoop pats info) k = dget info k := by
  induction pats generalizing info with
  | nil => rfl
  | cons ms rest ih =>
    cases ms with
    | nil => exact ih info
    | cons cs t =>
      obtain ⟨city, state⟩ := cs
      have hc : ∀ i : KVs, dget (if !(dmem i "state") then dset i "state" (sTrim state)
          else i) k = dget i k := by
        intro i
        by_cases hm : dmem i "state"
        · simp [hm]
        · simp only [hm, Bool.not_false, if_true]
          exact dget_dset_ne _ k _ _ (fun he => absurd he.symm h3)
      by_cases h1 : !(dmem info "city") ∧ city.length > 2
      · simp only [locLoop]
        rw [if_pos h1, hc, dget_dset_ne _ k _ _ (fun he => absurd he.symm h2)]
      · simp only [locLoop]
        rw [if_neg h1]
        exact hc info

theorem dget_locationStage (pats : List (List (String × String))) (info : KVs)
    (k : String) (h2 : k ≠ "city") (h3 : k ≠ "state") :
    dget (locationStage pats info) k = dget info k := by
  unfold locationStage
  by_cases hg : (!(dmem info "city") || !(dmem info "state")) = true
  · simp only [hg, if_true]
    exact dget_locLoop pats info k h2 h3
  · simp [hg]

theorem dget_socialStage_fb (hrefs : List String) (info : KVs) :
    dget (socialStage info hrefs) "facebook_page" =
      optOr (lastFb hrefs) (dget info "facebook_page") := by
  induction hrefs generalizing info with
  | nil => rfl
  | cons href t ih =>
    show dget (socialStage (socialStep info href) t) "facebook_page" = _
    rw [ih (socialStep info href)]
    cases hlt : lastFb t with
    | some u => simp [lastFb, optOr, hlt]
    | none =>
      simp only [lastFb, hlt, optOr]
      by_cases c1 : fbLinkCond (sLower href)
      · by_cases c2 : countChar (cleanUrl (sLower href)) '/' ≥ 3
        · rw [if_pos ⟨c1, c2⟩]
          simp only [socialStep, c1, if_true, c2, if_pos]
          rw [dget_dset_self]
        · rw [if_neg (fun hand => c2 hand.2)]
          simp only [socialStep, c1, if_true, c2, if_false]
      · rw [if_neg (fun hand => c1 hand.1)]
        simp only [socialStep, c1, Bool.false_eq_true, if_false]
        by_cases c3 : liLinkCond (sLower href)
        · simp only [c3, if_true]
          rw [dget_dset_ne _ _ _ _ (by decide)]
        · simp [c3]

theorem dget_socialStage_li (hrefs : List String) (info : KVs) :
    dget (socialStage info hrefs) "linkedin_page" =
      optOr (lastLi hrefs) (dget info "linkedin_page") := by
  induction hrefs generalizing info with
  | nil => rfl
  | cons href t ih =>
    show dget (socialStage (socialStep info href) t) "linkedin_page" = _
    rw [ih (socialStep info href)]
    cases hlt : lastLi t with
    | some u => simp [lastLi, optOr, hlt]
    | none =>
      simp only [lastLi, hlt, optOr]
      by_cases c1 : fbLinkCond (sLower href)
      · simp only [socialStep, c1, if_true]
        by_cases c2 : countChar (cleanUrl (sLower href)) '/' ≥ 3
        · simp only [c2, if_pos]
          rw [dget_dset_ne _ _ _ _ (by decide)]
          simp [c1]
        · simp [c1, c2]
      · have f1 : fbLinkCond (sLower href) = false := by
          cases hv : fbLinkCond (sLower href)
          · rfl
          · exact absurd hv c1
        simp only [socialStep, f1, Bool.false_eq_true, if_false]
        by_cases c3 : liLinkCond (sLower href)
        · simp only [c3, if_true]
          rw [dget_dset_self]
          simp [f1, c3]
        · have f3 : liLinkCond (sLower href) = false := by
            cases hv : liLinkCond (sLower href)
            · rfl
            · exact absurd hv c3
          simp [f1, f3]

theorem optOr_none (y : Option String) : optOr y none = y := by
  cases y <;> rfl

theorem dget_phoneStage_self (ms : List (List (String × String × String))) :
    dget (phoneStage ms []) "phone_number" = extractPhone ms := by
  unfold phoneStage
  cases extractPhone ms with
  | none => rfl
  | some p => exact dget_dset_self [] "phone_number" p

/-- The `phone_number` entry of a full extraction run is exactly what the
phone-selection loop produced: no other sub-extraction touches that key. -/
theorem dget_extract_phone (o : ExtractOracles) :
    dget (extract_company_info_with_ai o) "phone_number" =
      extractPhone o.phoneMatches := by
  unfold extract_company_info_with_ai
  rw [dget_locationStage _ _ _ (by decide) (by decide),
      dget_contactStage _ _ _ (by decide),
      dget_addrStage _ _ _ _ _ (by decide) (by decide) (by decide) (by decide),
      dget_socialStage _ _ _ (by decide) (by decide),
      dget_emailStage _ _ _ (by decide),
      dget_phoneStage_self]

/-- The `facebook_page` entry of a full extraction run is the last
qualifying anchor link. -/
theorem dget_extract_fb (o : ExtractOracles) :
    dget (extract_company_info_with_ai o) "facebook_page" = lastFb o.hrefs := by
  unfold extract_company_info_with_ai
  rw [dget_locationStage _ _ _ (by decide) (by decide),
      dget_contactStage _ _ _ (by decide),
      dget_addrStage _ _ _ _ _ (by decide) (by decide) (by decide) (by decide),
      dget_socialStage_fb,
      dget_emailStage _ _ _ (by decide),
      dget_phoneStage _ _ _ (by decide)]
  show optOr (lastFb o.hrefs) (dget [] "facebook_page") = lastFb o.hrefs
  exact optOr_none (lastFb o.hrefs)

/-- The `linkedin_page` entry of a full extraction run is the last
qualifying LinkedIn anchor link. -/
theorem dget_extract_li (o : ExtractOracles) :
    dget (extract_company_info_with_ai o) "linkedin_page" = lastLi o.hrefs := by
  unfold extract_company_info_with_ai
  rw [dget_locationStage _ _ _ (by decide) (by decide),
      dget_contactStage _ _ _ (by decide),
      dget_addrStage _ _ _ _ _ (by decide) (by decide) (by decide) (by decide),
      dget_socialStage_li,
      dget_emailStage _ _ _ (by decide),
      dget_phoneStage _ _ _ (by decide)]
  show optOr (lastLi o.hrefs) (dget [] "linkedin_page") = lastLi o.hrefs
  exact optOr_none (lastLi o.hrefs)

/-! ## Phone extraction lemmas -/

/-- All-digits test for a captured group. -/
def digitStr (s : String) : Bool := s.data.all Char.isDigit

/-- The group shape the three phone regexes guarantee:
`([0-9]{3}) ([0-9]{3}) ([0-9]{4})`. -/
def phoneShape (m : String × String × String) : Prop :=
  m.1.length = 3 ∧ digitStr m.1 = true ∧ m.2.1.length = 3 ∧ digitStr m.2.1 = true ∧
  m.2.2.length = 4 ∧ digitStr m.2.2 = true

instance : DecidablePred phoneShape := fun m => by
  unfold phoneShape
  infer_instance

theorem leadsWith_append_self (p r : List Char) : leadsWith p (p ++ r) = true := by
  induction p with
  | nil => rfl
  | cons c cs ih => simp [leadsWith, ih]

theorem str3_eq_555 (s : String) (h : sStarts s "555" = true) (hl : s.length = 3) :
    s = "555" := by
  obtain ⟨d⟩ := s
  have hd : d = ['5', '5', '5'] := by
    match d, hl with
    | [a, b, c], _ =>
      simp only [sStarts, leadsWith, Bool.and_eq_true, decide_eq_true_eq] at h
      obtain ⟨h1, h2, h3, _⟩ := h
      rw [← h1, ← h2, ← h3]
  rw [hd]

theorem fmt_starts_555 (b c : String) :
    sStarts ("(" ++ "555" ++ ") " ++ b ++ "-" ++ c) "(555)" = true := by
  have hdata : ("(" ++ "555" ++ ") " ++ b ++ "-" ++ c).data =
      '(' :: '5' :: '5' :: '5' :: ')' :: ' ' :: (b.data ++ '-' :: c.data) := by
    simp [String.data_append]
  unfold sStarts
  rw [hdata]
  simp [leadsWith]

/-- Under the 555-only hypothesis the selection loop rejects every pattern
and returns nothing. -/
theorem extractPhone_none_of_555 (ms : List (List (String × String × String)))
    (hshape : ∀ l ∈ ms, ∀ m ∈ l, phoneShape m)
    (h555 : ∀ l ∈ ms, ∀ m ∈ l, sStarts m.1 "555" = true) :
    extractPhone ms = none := by
  induction ms with
  | nil => rfl
  | cons l rest ih =>
    have hshape' : ∀ l' ∈ rest, ∀ m ∈ l', phoneShape m := fun l' hl' =>
      hshape l' (List.mem_cons_of_mem _ hl')
    have h555' : ∀ l' ∈ rest, ∀ m ∈ l', sStarts m.1 "555" = true := fun l' hl' =>
      h555 l' (List.mem_cons_of_mem _ hl')
    cases l with
    | nil => exact ih hshape' h555'
    | cons m t =>
      have hm : phoneShape m := hshape _ (List.mem_cons_self _ _) m (List.mem_cons_self _ _)
      have h5 : sStarts m.1 "555" = true :=
        h555 _ (List.mem_cons_self _ _) m (List.mem_cons_self _ _)
      have hm1 : m.1 = "555" := str3_eq_555 m.1 h5 hm.1
      show (if _ then extractPhone rest else _) = none
      rw [if_pos]
      · exact ih hshape' h555'
      · rw [hm1, fmt_starts_555 m.2.1 m.2.2]
        simp

/-- When the selection loop returns a phone, it was formatted from a match
of one of the pattern lists and passed the placeholder filter. -/
theorem extractPhone_some_inv (ms : List (List (String × String × String)))
    (p : String) (h : extractPhone ms = some p) :
    ∃ l ∈ ms, ∃ m ∈ l, p = "(" ++ m.1 ++ ") " ++ m.2.1 ++ "-" ++ m.2.2 ∧
      sStarts p "(000)" = false ∧ sStarts p "(111)" = false ∧
      sStarts p "(123)" = false ∧ sStarts p "(555)" = false := by
  induction ms with
  | nil => exact absurd h (by simp [extractPhone])
  | cons l rest ih =>
    cases l with
    | nil =>
      obtain ⟨l', hl', hrest⟩ := ih h
      exact ⟨l', List.mem_cons_of_mem _ hl', hrest⟩
    | cons m t =>
      by_cases hc : (sStarts ("(" ++ m.1 ++ ") " ++ m.2.1 ++ "-" ++ m.2.2) "(000)" ||
          sStarts ("(" ++ m.1 ++ ") " ++ m.2.1 ++ "-" ++ m.2.2) "(111)" ||
          sStarts ("(" ++ m.1 ++ ") " ++ m.2.1 ++ "-" ++ m.2.2) "(123)" ||
          sStarts ("(" ++ m.1 ++ ") " ++ m.2.1 ++ "-" ++ m.2.2) "(555)") = true
      · have hstep : extractPhone ((m :: t) :: rest) = extractPhone rest := by
          show (if _ then extractPhone rest else _) = extractPhone rest
          rw [if_pos hc]
        rw [hstep] at h
        obtain ⟨l', hl', hrest⟩ := ih h
        exact ⟨l', List.mem_cons_of_mem _ hl', hrest⟩
      · have hstep : extractPhone ((m :: t) :: rest) =
            some ("(" ++ m.1 ++ ") " ++ m.2.1 ++ "-" ++ m.2.2) := by
          show (if _ then extractPhone rest else _) = _
          rw [if_neg hc]
        rw [hstep] at h
        have hp : p = "(" ++ m.1 ++ ") " ++ m.2.1 ++ "-" ++ m.2.2 :=
          (Option.some.injEq _ _ ▸ h).symm
        simp only [Bool.or_eq_true, not_or, Bool.not_eq_true] at hc
        exact ⟨m :: t, List.mem_cons_self _ _, m, List.mem_cons_self _ _, hp,
          hp ▸ hc.1.1.1, hp ▸ hc.1.1.2, hp ▸ hc.1.2, hp ▸ hc.2⟩

/-! ## Claim C6 -/

/-- Claim C6: phone extraction applies the ordered pattern list and takes
the first match of the first pattern list with matches, rejecting matches whose formatted form
starts with area code 000, 111, 123 or 555; for every input whose
regex matches all carry a 555 area group, the extraction result has no
`phone_number` key, and any present `phone_number` value has the exact
format `(AAA) BBB-CCCC` and does not start with `(000)`, `(111)`, `(123)`
or `(555)`.  The shape hypothesis records what the phone regexes guarantee
about their captured groups. -/
theorem claim_C6 (o : ExtractOracles)
    (hshape : ∀ l ∈ o.phoneMatches, ∀ m ∈ l, phoneShape m) :
    ((∀ l ∈ o.phoneMatches, ∀ m ∈ l, sStarts m.1 "555" = true) →
      dget (extract_company_info_with_ai o) "phone_number" = none) ∧
    (∀ p, dget (extract_company_info_with_ai o) "phone_number" = some p →
      (∃ a b c : String, a.length = 3 ∧ digitStr a = true ∧ b.length = 3 ∧
        digitStr b = true ∧ c.length = 4 ∧ digitStr c = true ∧
        p = "(" ++ a ++ ") " ++ b ++ "-" ++ c) ∧
      sStarts p "(000)" = false ∧ sStarts p "(111)" = false ∧
      sStarts p "(123)" = false ∧ sStarts p "(555)" = false) := by
  constructor
  · intro h555
    rw [dget_extract_phone]
    exact extractPhone_none_of_555 o.phoneMatches hshape h555
  · intro p hp
    rw [dget_extract_phone] at hp
    obtain ⟨l, hl, m, hm, hfmt, h0, h1, h2, h5⟩ := extractPhone_some_inv _ p hp
    have hsh := hshape l hl m hm
    exact ⟨⟨m.1, m.2.1, m.2.2, hsh.1, hsh.2.1, hsh.2.2.1, hsh.2.2.2.1,
      hsh.2.2.2.2.1, hsh.2.2.2.2.2, hfmt⟩, h0, h1, h2, h5⟩

/-- Concrete oracle input for the C6 witness: every phone pattern matches
only the placeholder `555-123-4567`. -/
def oC6 : ExtractOracles :=
  { phoneMatches := [[("555", "123", "4567")], [("555", "123", "4567")],
      [("555", "123", "4567")]],
    emailMatches := [], hrefs := [], addr1 := [], addr2 := [], addrSecs := [],
    contactBlocks := [], cityState := [] }

/-- Witness for C6 at a concrete input: a page whose only phone-shaped
numbers start with 555 yields no `phone_number` key. -/
theorem claim_C6_witness :
    dget (extract_company_info_with_ai oC6) "phone_number" = none :=
  (claim_C6 oC6 (by decide)).1 (by decide)

/-! ## Claim C7 -/

/-- Claim C7 (amended): for every anchor list, the `facebook_page` value of
the base extraction result is the *last* qualifying anchor link in
document order (qualifying: the lowered href contains `facebook.com`,
contains none of `/pages/`, `/groups/`, `/sharer`, `/login`, and after
stripping query and fragment contains at least 3 `/` characters), and
`linkedin_page` is the *last* anchor link containing
`linkedin.com/company` or `linkedin.com/in` not captured by the Facebook
branch, stripped of query and fragment; each qualifying link overwrites
the previous one. -/
theorem claim_C7 (o : ExtractOracles) :
    dget (extract_company_info_with_ai o) "facebook_page" = lastFb o.hrefs ∧
    dget (extract_company_info_with_ai o) "linkedin_page" = lastLi o.hrefs :=
  ⟨dget_extract_fb o, dget_extract_li o⟩

/-- Concrete oracle input for the C7 counterexample: two qualifying
Facebook links in document order. -/
def oC7 : ExtractOracles :=
  { phoneMatches := [], emailMatches := [],
    hrefs := ["https://facebook.com/alpha", "https://facebook.com/beta"],
    addr1 := [], addr2 := [], addrSecs := [], contactBlocks := [],
    cityState := [] }

/-- Counterexample to claim C7 as stated: with two qualifying Facebook
anchors the extraction keeps the *second* one, while the claim predicts
the first qualifying link wins. -/
theorem claim_C7_counterexample :
    dget (extract_company_info_with_ai oC7) "facebook_page" =
      some "https://facebook.com/beta" ∧
    firstFb oC7.hrefs = some "https://facebook.com/alpha" ∧
    ("https://facebook.com/beta" : String) ≠ "https://facebook.com/alpha" := by
  refine ⟨?_, by decide, by decide⟩
  rw [dget_extract_fb]
  decide

/-! ## Claim C2 -/

theorem dget_empty_forall (l : KVs) (k : String)
    (hnd : (l.map Prod.fst).Nodup)
    (h : dget l k = none ∨ dget l k = some "") :
    ∀ v, (k, v) ∈ l → v = "" := by
  induction l with
  | nil => intro v hv; cases hv
  | cons kv rest ih =>
    obtain ⟨a, b⟩ := kv
    intro v hv
    by_cases hak : a = k
    · subst hak
      have hb : b = "" := by
        simp only [dget, if_pos rfl] at h
        rcases h with h | h
        · cases h
        · exact (Option.some.injEq _ _ ▸ h)
      rcases List.mem_cons.mp hv with h' | h'
      · have : v = b := congrArg Prod.snd h'
        rw [this, hb]
      · exfalso
        have hhead : a ∉ rest.map Prod.fst := (List.nodup_cons.mp hnd).1
        exact hhead (List.mem_map_of_mem Prod.fst h')
    · rcases List.mem_cons.mp hv with h' | h'
      · exact absurd (congrArg Prod.fst h').symm hak
      · refine ih (List.nodup_cons.mp hnd).2 ?_ v h'
        simpa [dget, hak] using h

/-- Claim C2: merging an extraction result into a `CompanyData` record never
overwrites an already-non-empty field with an empty value: if the record's
field `F` is non-empty before the merge and the value of the extraction mapping
for `F` is absent or empty, the field is unchanged.  Both the
base-extraction merge and the Facebook-result merge of `process_company`
are instances of `mergeInfo`.  The `Nodup` hypothesis records that a
Python dict has unique keys. -/
theorem claim_C2 (cd : CompanyData) (kvs : KVs) (F : CField)
    (hkeys : (kvs.map Prod.fst).Nodup)
    (hne : getF cd F ≠ "")
    (hempty : dget kvs (fname F) = none ∨ dget kvs (fname F) = some "") :
    getF (mergeInfo cd kvs) F = getF cd F :=
  mergeInfo_pres_of_empty kvs cd F (dget_empty_forall kvs (fname F) hkeys hempty)

/-- A record with a populated phone number, for the C2 witness. -/
def cdC2 : CompanyData := { company_name := "Acme", phone_number := "(646) 208-0199" }

/-- Witness for C2 at a concrete input: an extraction mapping carrying an
empty `phone_number` leaves the populated field untouched. -/
theorem claim_C2_witness :
    getF (mergeInfo cdC2 [("phone_number", ""), ("city", "Austin")])
        CField.phone_number = getF cdC2 CField.phone_number :=
  claim_C2 cdC2 [("phone_number", ""), ("city", "Austin")] CField.phone_number
    (by decide) (by decide) (Or.inr (by decide))

/-! ## Claim C9 -/

/-- Claim C9 (amended): extraction mappings may contain empty-string values
— the Facebook extractor initialises all three of its fields to empty
strings — but the merge step never writes an empty value into the record:
whenever a merge changes a field, the new value is non-empty, so an empty
extraction value behaves exactly as an absent key downstream. -/
theorem claim_C9 (cd : CompanyData) (kvs : KVs) (F : CField)
    (h : getF (mergeInfo cd kvs) F ≠ getF cd F) :
    getF (mergeInfo cd kvs) F ≠ "" :=
  mergeInfo_writes_nonempty kvs cd F h

/-- Witness for C9 at a concrete input: the merge writes the non-empty
`city` value. -/
theorem claim_C9_witness :
    getF (mergeInfo {} [("city", "Austin")]) CField.city ≠ "" :=
  claim_C9 {} [("city", "Austin")] CField.city (by decide)

/-- Counterexample to claim C9 as stated: the mapping produced by the
social-profile extractor contains an empty-string value (here on the
no-URL path, whose initial dict already carries the three empty fields;
the scrape path behaves the same for any field it cannot fill). -/
theorem claim_C9_counterexample :
    ("facebook_likes", "") ∈ extract_facebook_info "" true (Except.error "nav") := by
  decide

/-! ## Claim C3 -/

/-- Claim C3 (amended): `validate_website_relevance` returns `true` iff the
count of significant company-name words — word-character tokens (letters,
digits or underscore) longer than 3 characters, rather than the purely
alphabetic tokens the original claim names — appearing case-insensitively
as substrings of the page text meets the threshold (1 when the name has a
healthcare keyword, else 2), except that it returns `false` for URLs whose
domain is in the generic-domain blocklist.  In particular: healthcare name
with exactly one match gives `true`; non-healthcare name with exactly one
match gives `false`; two or more matches give `true` regardless of sector. -/
theorem claim_C3 (name content url : String) :
    (sLower (netloc url) ∈ genericDomains →
      validate_website_relevance name content url = false) ∧
    (sLower (netloc url) ∉ genericDomains →
      ((validate_website_relevance name content url = true ↔
        specMatchCount name content ≥ specThreshold name) ∧
       (hasHealthWord name = true → specMatchCount name content = 1 →
         validate_website_relevance name content url = true) ∧
       (hasHealthWord name = false → specMatchCount name content = 1 →
         validate_website_relevance name content url = false) ∧
       (specMatchCount name content ≥ 2 →
         validate_website_relevance name content url = true))) := by
  by_cases hd : sLower (netloc url) ∈ genericDomains
  · refine ⟨fun _ => ?_, fun hnd => absurd hd hnd⟩
    unfold validate_website_relevance
    rw [if_pos hd]
  · refine ⟨fun hc => absurd hc hd, fun _ => ?_⟩
    have hv : validate_website_relevance name content url =
        decide (specMatchCount name content ≥ specThreshold name) := by
      unfold validate_website_relevance specMatchCount specThreshold
      rw [if_neg hd]
    refine ⟨?_, ?_, ?_, ?_⟩
    · rw [hv]
      exact decide_eq_true_iff
    · intro hh hm
      rw [hv]
      apply decide_eq_true
      rw [hm]
      unfold specThreshold
      rw [if_pos hh]
    · intro hh hm
      rw [hv]
      apply decide_eq_false
      rw [hm]
      unfold specThreshold
      rw [if_neg (by simp [hh])]
      omega
    · intro hm
      rw [hv]
      apply decide_eq_true
      refine le_trans ?_ hm
      unfold specThreshold
      by_cases hh : hasHealthWord name = true
      · rw [if_pos hh]; omega
      · rw [if_neg hh]

/-- Witness for C3 at a concrete input: healthcare-keyword name, exactly
one significant-word match, non-blocklisted domain — accepted. -/
theorem claim_C3_witness :
    validate_website_relevance "Acme Health" "acme portal" "https://acmehealth.com" = true :=
  ((claim_C3 "Acme Health" "acme portal" "https://acmehealth.com").2
    (by decide)).2.1 (by decide) (by decide)

/-- Counterexample to claim C3 as stated: the name `Zorg 2000` has one
alphabetic significant token (`zorg`) and no healthcare keyword, so the
claim predicts rejection (one match < 2); but the code also counts the
digit token `2000`, reaching two matches, and accepts. -/
theorem claim_C3_counterexample :
    validate_website_relevance "Zorg 2000" "zorg 2000 website" "https://zorg2000.com"
      = true ∧
    claimRelevanceSpec "Zorg 2000" "zorg 2000 website" "https://zorg2000.com"
      = false := by
  decide

/-! ## Claim C4 -/

theorem mem_dedupeFilter (ds : List String) (seen : List String) (d : String) :
    d ∈ dedupeFilter seen ds ↔ (d ∈ ds ∧ d ∉ seen ∧ d.length > 6) := by
  induction ds generalizing seen with
  | nil => simp [dedupeFilter]
  | cons a t ih =>
    by_cases h : a ∉ seen ∧ a.length > 6
    · simp only [dedupeFilter, if_pos h, List.mem_cons]
      constructor
      · rintro (rfl | hm)
        · exact ⟨Or.inl rfl, h.1, h.2⟩
        · have hr := (ih (a :: seen)).mp hm
          exact ⟨Or.inr hr.1, fun hs => hr.2.1 (List.mem_cons_of_mem _ hs), hr.2.2⟩
      · rintro ⟨(rfl | hd), hns, hlen⟩
        · exact Or.inl rfl
        · by_cases hda : d = a
          · exact Or.inl hda
          · refine Or.inr ((ih (a :: seen)).mpr ⟨hd, ?_, hlen⟩)
            intro hm
            rcases List.mem_cons.mp hm with h' | h'
            · exact hda h'
            · exact hns h'
    · simp only [dedupeFilter, if_neg h]
      rw [ih seen, List.mem_cons]
      constructor
      · rintro ⟨hd, hns, hlen⟩
        exact ⟨Or.inr hd, hns, hlen⟩
      · rintro ⟨(rfl | hd), hns, hlen⟩
        · exact absurd ⟨hns, hlen⟩ h
        · exact ⟨hd, hns, hlen⟩

theorem nodup_dedupeFilter (ds : List String) (seen : List String) :
    (dedupeFilter seen ds).Nodup := by
  induction ds generalizing seen with
  | nil => exact List.nodup_nil
  | cons a t ih =>
    by_cases h : a ∉ seen ∧ a.length > 6
    · simp only [dedupeFilter, if_pos h]
      refine List.nodup_cons.mpr ⟨?_, ih (a :: seen)⟩
      intro hmem
      exact ((mem_dedupeFilter t (a :: seen) a).mp hmem).2.1 (List.mem_cons_self a seen)
    · simp only [dedupeFilter, if_neg h]
      exact ih seen

theorem sublist_dedupeFilter (ds : List String) (seen : List String) :
    List.Sublist (dedupeFilter seen ds) ds := by
  induction ds generalizing seen with
  | nil => exact List.Sublist.refl []
  | cons a t ih =>
    by_cases h : a ∉ seen ∧ a.length > 6
    · simp only [dedupeFilter, if_pos h]
      exact List.Sublist.cons₂ a (ih (a :: seen))
    · simp only [dedupeFilter, if_neg h]
      exact List.Sublist.cons a (ih seen)

/-- Claim C4: domain-guess candidate generation is a deterministic pure
function of the company name.  The attempted list is the dedup (preserving
order — `uniqueDomains` is an order-preserving sublist of the generated
`potentialDomains`) of the generated candidates, contains only candidates
longer than 6 characters with no duplicates, and at most the first 8
candidates are ever attempted; equal names give the identical list. -/
theorem claim_C4 (name : String) :
    (uniqueDomains name).Nodup ∧
    List.Sublist (uniqueDomains name) (potentialDomains name) ∧
    (∀ d ∈ uniqueDomains name, d ∈ potentialDomains name ∧ 6 < d.length) ∧
    (attemptedDomains name).length ≤ 8 ∧
    (∀ d ∈ attemptedDomains name, d ∈ uniqueDomains name) ∧
    (∀ m : String, m = name → attemptedDomains m = attemptedDomains name) := by
  refine ⟨nodup_dedupeFilter _ [], sublist_dedupeFilter _ [], ?_, ?_, ?_, ?_⟩
  · intro d hd
    have h := (mem_dedupeFilter (potentialDomains name) [] d).mp hd
    exact ⟨h.1, h.2.2⟩
  · show ((uniqueDomains name).take 8).length ≤ 8
    rw [List.length_take]
    exact min_le_left _ _
  · intro d hd
    exact List.take_subset 8 (uniqueDomains name) hd
  · intro m hm
    rw [hm]

/-- Witness for C4 at a concrete input: the healthcare-branch candidate
`acmehealth.com` is generated for `Acme Health Services`, is longer than
6 characters, and the attempted list is capped at 8. -/
theorem claim_C4_witness :
    ("acmehealth.com" ∈ potentialDomains "Acme Health Services" ∧
      6 < ("acmehealth.com" : String).length) ∧
    (attemptedDomains "Acme Health Services").length ≤ 8 :=
  ⟨(claim_C4 "Acme Health Services").2.2.1 "acmehealth.com" (by decide),
   (claim_C4 "Acme Health Services").2.2.2.1⟩

/-! ## Claim C5 -/

/-- Claim C5: `fetch_website_content` never raises (it is total) and returns
a non-empty string only when some attempt yields a success (200) response
whose body is longer than 500 characters and contains `<html`
case-insensitively; for a URL without a scheme it tries `https://` then
`http://` in that order, for a URL with a scheme it uses the URL as given;
every other outcome yields fallthrough to the next protocol or the empty
string. -/
theorem claim_C5 (url : String) (http : String → Except String HttpResp) :
    (fetch_website_content url http ≠ "" →
      (fetch_website_content url http).length > 500 ∧
      isSubstr "<html" (sLower (fetch_website_content url http)) = true ∧
      ∃ u r, (u = url ∨ u = "https://" ++ url ∨ u = "http://" ++ url) ∧
        http u = Except.ok r ∧ r.status = 200 ∧
        r.body = fetch_website_content url http) ∧
    fetch_website_content url http =
      (if sStarts url "http://" || sStarts url "https://" then
        (attemptOk http url).getD ""
       else (optOr (attemptOk http ("https://" ++ url))
               (attemptOk http ("http://" ++ url))).getD "") := by
  have hbodyOk : ∀ b : String, htmlBodyOk b = true →
      b.length > 500 ∧ isSubstr "<html" (sLower b) = true := by
    intro b hb
    rw [htmlBodyOk, Bool.and_eq_true] at hb
    exact ⟨by simpa using hb.1, hb.2⟩
  by_cases hs : (sStarts url "http://" || sStarts url "https://") = true
  · cases hu : http url with
    | error e =>
      have hfe : fetch_website_content url http = "" := by
        simp [fetch_website_content, hs, hu]
      refine ⟨fun hne => absurd hfe hne, ?_⟩
      rw [hfe]
      simp [attemptOk, hs, hu]
    | ok r =>
      by_cases h200 : r.status = 200
      · by_cases hbody : htmlBodyOk r.body = true
        · have hfe : fetch_website_content url http = r.body := by
            simp [fetch_website_content, hs, hu, h200, hbody]
          refine ⟨fun _ => ?_, ?_⟩
          · obtain ⟨hl, hsub⟩ := hbodyOk r.body hbody
            rw [hfe]
            exact ⟨hl, hsub, url, r, Or.inl rfl, hu, h200, rfl⟩
          · rw [hfe]
            simp [attemptOk, hs, hu, h200, hbody]
        · have hfe : fetch_website_content url http = "" := by
            simp [fetch_website_content, hs, hu, h200, hbody]
          refine ⟨fun hne => absurd hfe hne, ?_⟩
          rw [hfe]
          simp [attemptOk, hs, hu, h200, hbody]
      · have hfe : fetch_website_content url http = "" := by
          simp [fetch_website_content, hs, hu, h200]
        refine ⟨fun hne => absurd hfe hne, ?_⟩
        rw [hfe]
        simp [attemptOk, hs, hu, h200]
  · have hq : ∀ r : HttpResp, (r.status = 200 && htmlBodyOk r.body) = true →
        r.status = 200 ∧ htmlBodyOk r.body = true := by
      intro r hr
      rw [Bool.and_eq_true] at hr
      exact ⟨by simpa using hr.1, hr.2⟩
    cases hu1 : http ("https://" ++ url) with
    | ok r =>
      by_cases hq1 : (r.status = 200 && htmlBodyOk r.body) = true
      · have hfe : fetch_website_content url http = r.body := by
          simp [fetch_website_content, hs, hu1, hq1]
        refine ⟨fun _ => ?_, ?_⟩
        · obtain ⟨h200, hbody⟩ := hq r hq1
          obtain ⟨hl, hsub⟩ := hbodyOk r.body hbody
          rw [hfe]
          exact ⟨hl, hsub, "https://" ++ url, r, Or.inr (Or.inl rfl), hu1, h200, rfl⟩
        · rw [hfe]
          simp [attemptOk, optOr, hs, hu1, hq1]
      · cases hu2 : http ("http://" ++ url) with
        | error e2 =>
          have hfe : fetch_website_content url http = "" := by
            simp [fetch_website_content, hs, hu1, hq1, hu2]
          refine ⟨fun hne => absurd hfe hne, ?_⟩
          rw [hfe]
          simp [attemptOk, optOr, hs, hu1, hq1, hu2]
        | ok r' =>
          by_cases hq2 : (r'.status = 200 && htmlBodyOk r'.body) = true
          · have hfe : fetch_website_content url http = r'.body := by
              simp [fetch_website_content, hs, hu1, hq1, hu2, hq2]
            refine ⟨fun _ => ?_, ?_⟩
            · obtain ⟨h200, hbody⟩ := hq r' hq2
              obtain ⟨hl, hsub⟩ := hbodyOk r'.body hbody
              rw [hfe]
              exact ⟨hl, hsub, "http://" ++ url, r', Or.inr (Or.inr rfl), hu2, h200, rfl⟩
            · rw [hfe]
              simp [attemptOk, optOr, hs, hu1, hq1, hu2, hq2]
          · have hfe : fetch_website_content url http = "" := by
              simp [fetch_website_content, hs, hu1, hq1, hu2, hq2]
            refine ⟨fun hne => absurd hfe hne, ?_⟩
            rw [hfe]
            simp [attemptOk, optOr, hs, hu1, hq1, hu2, hq2]
    | error e =>
      cases hu2 : http ("http://" ++ url) with
      | error e2 =>
        have hfe : fetch_website_content url http = "" := by
          simp [fetch_website_content, hs, hu1, hu2]
        refine ⟨fun hne => absurd hfe hne, ?_⟩
        rw [hfe]
        simp [attemptOk, optOr, hs, hu1, hu2]
      | ok r' =>
        by_cases hq2 : (r'.status = 200 && htmlBodyOk r'.body) = true
        · have hfe : fetch_website_content url http = r'.body := by
            simp [fetch_website_content, hs, hu1, hu2, hq2]
          refine ⟨fun _ => ?_, ?_⟩
          · obtain ⟨h200, hbody⟩ := hq r' hq2
            obtain ⟨hl, hsub⟩ := hbodyOk r'.body hbody
            rw [hfe]
            exact ⟨hl, hsub, "http://" ++ url, r', Or.inr (Or.inr rfl), hu2, h200, rfl⟩
          · rw [hfe]
            simp [attemptOk, optOr, hs, hu1, hu2, hq2]
        · have hfe : fetch_website_content url http = "" := by
            simp [fetch_website_content, hs, hu1, hu2, hq2]
          refine ⟨fun hne => absurd hfe hne, ?_⟩
          rw [hfe]
          simp [attemptOk, optOr, hs, hu1, hu2, hq2]

/-- A qualifying HTML body for the C5 witness: 501 characters beginning
with an HTML tag. -/
def bodyC5 : String := "<html" ++ ⟨List.replicate 496 'a'⟩

/-- HTTP oracle for the C5 witness: only the `https` attempt succeeds. -/
def httpC5 : String → Except String HttpResp := fun u =>
  if u = "https://acme.com" then Except.ok ⟨200, bodyC5⟩
  else Except.error "connection refused"

set_option maxRecDepth 4000 in
/-- Witness for C5 at a concrete input: a schemeless URL fetched over the
`https` attempt returns the long HTML body. -/
theorem claim_C5_witness :
    (fetch_website_content "acme.com" httpC5).length > 500 ∧
    isSubstr "<html" (sLower (fetch_website_content "acme.com" httpC5)) = true ∧
    ∃ u r, (u = "acme.com" ∨ u = "https://" ++ "acme.com" ∨
        u = "http://" ++ "acme.com") ∧
      httpC5 u = Except.ok r ∧ r.status = 200 ∧
      r.body = fetch_website_content "acme.com" httpC5 :=
  (claim_C5 "acme.com" httpC5).1 (by decide)

/-! ## Claim C1 -/

/-- Whether an oracle call completed without raising. -/
def exOk {ε α : Type} : Except ε α → Bool
  | Except.ok _ => true
  | Except.error _ => false

theorem err_status_ne (m t : String) (h : t.data.head? ≠ some 'E') :
    "Error: " ++ m ≠ t := by
  intro he
  have hhead : ("Error: " ++ m).data.head? = some 'E' := by
    rw [String.data_append]
    rfl
  rw [he] at hhead
  exact h hhead

theorem round2_nonneg (q : ℚ) (h : 0 ≤ q) : 0 ≤ round2 q := by
  unfold round2
  have h2 : (0 : ℤ) ≤ round (q * 100) := by
    rw [round_eq]
    apply Int.floor_nonneg.mpr
    nlinarith
  have h3 : (0 : ℚ) ≤ ((round (q * 100) : ℤ) : ℚ) := by exact_mod_cast h2
  exact div_nonneg h3 (by norm_num)

/-- Claim C1: for every input, `process_company` returns exactly one record
and never raises (the model is a total function); the final status is
`Website not found` when resolution leaves the website empty,
`Could not fetch website content` when a website exists but fetching
returns empty, `Success` iff content was fetched and the base extraction
step ran without throwing, and `Error: <message>` when an exception
escapes the sequence (caught once at the top); `processing_time` is set
from the elapsed wall-clock time and is nonnegative on every path. -/
theorem claim_C1 (name website ts : String)
    (resolveStep : Except String String)
    (fetchStep : String → Except String String)
    (baseStep : String → String → Except String KVs)
    (driverOk : Bool) (scrape : String → Except String FbScrape)
    (elapsed : ℚ) (helapsed : 0 ≤ elapsed) :
    ((process_company name website ts resolveStep fetchStep baseStep driverOk
        scrape elapsed).status = "Website not found" ∨
     (process_company name website ts resolveStep fetchStep baseStep driverOk
        scrape elapsed).status = "Could not fetch website content" ∨
     (process_company name website ts resolveStep fetchStep baseStep driverOk
        scrape elapsed).status = "Success" ∨
     ∃ m, (process_company name website ts resolveStep fetchStep baseStep driverOk
        scrape elapsed).status = "Error: " ++ m) ∧
    (website = "" → resolveStep = Except.ok "" →
      (process_company name website ts resolveStep fetchStep baseStep driverOk
        scrape elapsed).status = "Website not found") ∧
    (∀ w, effResolve website resolveStep = Except.ok w → w ≠ "" →
      fetchStep w = Except.ok "" →
      (process_company name website ts resolveStep fetchStep baseStep driverOk
        scrape elapsed).status = "Could not fetch website content") ∧
    ((process_company name website ts resolveStep fetchStep baseStep driverOk
        scrape elapsed).status = "Success" ↔
      ∃ w html, effResolve website resolveStep = Except.ok w ∧ w ≠ "" ∧
        fetchStep w = Except.ok html ∧ html ≠ "" ∧
        exOk (baseStep w html) = true) ∧
    (∀ m, effResolve website resolveStep = Except.error m →
      (process_company name website ts resolveStep fetchStep baseStep driverOk
        scrape elapsed).status = "Error: " ++ m) ∧
    (∀ w m, effResolve website resolveStep = Except.ok w → w ≠ "" →
      fetchStep w = Except.error m →
      (process_company name website ts resolveStep fetchStep baseStep driverOk
        scrape elapsed).status = "Error: " ++ m) ∧
    (∀ w html m, effResolve website resolveStep = Except.ok w → w ≠ "" →
      fetchStep w = Except.ok html → html ≠ "" →
      baseStep w html = Except.error m →
      (process_company name website ts resolveStep fetchStep baseStep driverOk
        scrape elapsed).status = "Error: " ++ m) ∧
    ((process_company name website ts resolveStep fetchStep baseStep driverOk
        scrape elapsed).processing_time = round2 elapsed ∧
     0 ≤ (process_company name website ts resolveStep fetchStep baseStep driverOk
        scrape elapsed).processing_time) := by
  have hpt : (process_company name website ts resolveStep fetchStep baseStep driverOk
      scrape elapsed).processing_time = round2 elapsed := rfl
  cases hres : effResolve website resolveStep with
  | error m =>
    have hst : (process_company name website ts resolveStep fetchStep baseStep driverOk
        scrape elapsed).status = "Error: " ++ m := by
      simp only [process_company, hres]
    refine ⟨Or.inr (Or.inr (Or.inr ⟨m, hst⟩)), ?_, ?_, ?_, ?_, ?_, ?_,
      hpt, hpt ▸ round2_nonneg elapsed helapsed⟩
    · intro hw hr
      rw [effResolve, if_pos hw, hr] at hres
      cases hres
    · intro w hok
      cases hok
    · rw [hst]
      constructor
      · intro he
        exact absurd he (err_status_ne m _ (by decide))
      · rintro ⟨w, html, hok, _⟩
        cases hok
    · intro m' hm'
      cases hm'
      exact hst
    · intro w m' hok
      cases hok
    · intro w html m' hok
      cases hok
  | ok w =>
    by_cases hw : w = ""
    · subst hw
      have hst : (process_company name website ts resolveStep fetchStep baseStep driverOk
          scrape elapsed).status = "Website not found" := by
        simp only [process_company, hres]
        rfl
      refine ⟨Or.inl hst, fun _ _ => hst, ?_, ?_, ?_, ?_, ?_,
        hpt, hpt ▸ round2_nonneg elapsed helapsed⟩
      · intro w' hok hne
        cases hok
        exact absurd rfl hne
      · rw [hst]
        constructor
        · intro he
          exact absurd he (by decide)
        · rintro ⟨w', html, hok, hne, _⟩
          cases hok
          exact absurd rfl hne
      · intro m' hm'
        cases hm'
      · intro w' m' hok hne
        cases hok
        exact absurd rfl hne
      · intro w' html m' hok hne
        cases hok
        exact absurd rfl hne
    · cases hfetch : fetchStep w with
      | error m =>
        have hst : (process_company name website ts resolveStep fetchStep baseStep
            driverOk scrape elapsed).status = "Error: " ++ m := by
          simp only [process_company, hres, if_neg hw, hfetch]
        refine ⟨Or.inr (Or.inr (Or.inr ⟨m, hst⟩)), ?_, ?_, ?_, ?_, ?_, ?_,
          hpt, hpt ▸ round2_nonneg elapsed helapsed⟩
        · intro hweb hr
          rw [effResolve, if_pos hweb, hr] at hres
          cases hres
          exact absurd rfl hw
        · intro w' hok hne hf
          cases hok
          rw [hfetch] at hf
          cases hf
        · rw [hst]
          constructor
          · intro he
            exact absurd he (err_status_ne m _ (by decide))
          · rintro ⟨w', html, hok, hne, hf, _⟩
            cases hok
            rw [hfetch] at hf
            cases hf
        · intro m' hm'
          cases hm'
        · intro w' m' hok hne hf
          cases hok
          rw [hfetch] at hf
          cases hf
          exact hst
        · intro w' html m' hok hne hf
          cases hok
          rw [hfetch] at hf
          cases hf
      | ok html =>
        by_cases hh : html = ""
        · subst hh
          have hst : (process_company name website ts resolveStep fetchStep baseStep
              driverOk scrape elapsed).status = "Could not fetch website content" := by
            simp only [process_company, hres, if_neg hw, hfetch]
            rfl
          refine ⟨Or.inr (Or.inl hst), ?_, fun _ _ _ _ => hst, ?_, ?_, ?_, ?_,
            hpt, hpt ▸ round2_nonneg elapsed helapsed⟩
          · intro hweb hr
            rw [effResolve, if_pos hweb, hr] at hres
            cases hres
            exact absurd rfl hw
          · rw [hst]
            constructor
            · intro he
              exact absurd he (by decide)
            · rintro ⟨w', html', hok, hne, hf, hne', _⟩
              cases hok
              rw [hfetch] at hf
              cases hf
              exact absurd rfl hne'
          · intro m' hm'
            cases hm'
          · intro w' m' hok hne hf
            cases hok
            rw [hfetch] at hf
            cases hf
          · intro w' html' m' hok hne hf hne'
            cases hok
            rw [hfetch] at hf
            cases hf
            exact absurd rfl hne'
        · cases hbase : baseStep w html with
          | error m =>
            have hst : (process_company name website ts resolveStep fetchStep baseStep
                driverOk scrape elapsed).status = "Error: " ++ m := by
              simp only [process_company, hres, if_neg hw, hfetch, if_neg hh, hbase]
            refine ⟨Or.inr (Or.inr (Or.inr ⟨m, hst⟩)), ?_, ?_, ?_, ?_, ?_, ?_,
              hpt, hpt ▸ round2_nonneg elapsed helapsed⟩
            · intro hweb hr
              rw [effResolve, if_pos hweb, hr] at hres
              cases hres
              exact absurd rfl hw
            · intro w' hok hne hf
              cases hok
              rw [hfetch] at hf
              cases hf
              exact absurd rfl hh
            · rw [hst]
              constructor
              · intro he
                exact absurd he (err_status_ne m _ (by decide))
              · rintro ⟨w', html', hok, hne, hf, hne', hbase'⟩
                cases hok
                rw [hfetch] at hf
                cases hf
                rw [hbase] at hbase'
                cases hbase'
            · intro m' hm'
              cases hm'
            · intro w' m' hok hne hf
              cases hok
              rw [hfetch] at hf
              cases hf
            · intro w' html' m' hok hne hf hne' hb
              cases hok
              rw [hfetch] at hf
              cases hf
              rw [hbase] at hb
              cases hb
              exact hst
          | ok info =>
            have hst : (process_company name website ts resolveStep fetchStep baseStep
                driverOk scrape elapsed).status = "Success" := by
              simp only [process_company, hres, if_neg hw, hfetch, if_neg hh, hbase]
            refine ⟨Or.inr (Or.inr (Or.inl hst)), ?_, ?_, ?_, ?_, ?_, ?_,
              hpt, hpt ▸ round2_nonneg elapsed helapsed⟩
            · intro hweb hr
              rw [effResolve, if_pos hweb, hr] at hres
              cases hres
              exact absurd rfl hw
            · intro w' hok hne hf
              cases hok
              rw [hfetch] at hf
              cases hf
              exact absurd rfl hh
            · rw [hst]
              constructor
              · intro _
                exact ⟨w, html, rfl, hw, hfetch, hh, by rw [hbase]; rfl⟩
              · intro _
                rfl
            · intro m' hm'
              cases hm'
            · intro w' m' hok hne hf
              cases hok
              rw [hfetch] at hf
              cases hf
            · intro w' html' m' hok hne hf hne' hb
              cases hok
              rw [hfetch] at hf
              cases hf
              rw [hbase] at hb
              cases hb

/-- Witness for C1 at a concrete input: resolution finds a website, the
fetch returns an empty body, and the record carries the fetch-failure
status with the rounded nonnegative elapsed time. -/
theorem claim_C1_witness :
    (process_company "Acme" "" "ts" (Except.ok "acme.com") (fun _ => Except.ok "")
        (fun _ _ => Except.ok []) true (fun _ => Except.error "nav") (5 / 2)).status =
      "Could not fetch website content" ∧
    (process_company "Acme" "" "ts" (Except.ok "acme.com") (fun _ => Except.ok "")
        (fun _ _ => Except.ok []) true (fun _ => Except.error "nav")
        (5 / 2)).processing_time = round2 (5 / 2) ∧
    0 ≤ (process_company "Acme" "" "ts" (Except.ok "acme.com")
        (fun _ => Except.ok "") (fun _ _ => Except.ok []) true
        (fun _ => Except.error "nav") (5 / 2)).processing_time := by
  have h := claim_C1 "Acme" "" "ts" (Except.ok "acme.com") (fun _ => Except.ok "")
    (fun _ _ => Except.ok []) true (fun _ => Except.error "nav") (5 / 2) (by norm_num)
  exact ⟨h.2.2.1 "acme.com" rfl (by decide) rfl,
    h.2.2.2.2.2.2.2.1, h.2.2.2.2.2.2.2.2⟩

/-! ## Claim C10 -/

theorem mem_fbu_keys (u k v : String)
    (hm : (k, v) ∈ extract_facebook_from_url u) : k = "facebook_page_name" := by
  unfold extract_facebook_from_url at hm
  dsimp only [] at hm
  split at hm
  · split at hm
    · simp only [List.mem_singleton, Prod.mk.injEq] at hm
      exact hm.1
    · cases hm
  · cases hm

theorem mem_dupdate_keys (e d : KVs) (k v : String) (hm : (k, v) ∈ dupdate d e) :
    (∃ v', (k, v') ∈ d) ∨ (∃ v', (k, v') ∈ e) := by
  induction e generalizing d with
  | nil => exact Or.inl ⟨v, hm⟩
  | cons kv rest ih =>
    obtain ⟨k1, v1⟩ := kv
    have hstep : dupdate d ((k1, v1) :: rest) = dupdate (dset d k1 v1) rest := rfl
    rw [hstep] at hm
    rcases ih (dset d k1 v1) hm with ⟨v', hv'⟩ | ⟨v', hv'⟩
    · rcases mem_dset d k1 v1 k v' hv' with ⟨hk, _⟩ | hd
      · subst hk
        exact Or.inr ⟨v1, List.mem_cons_self _ _⟩
      · exact Or.inl ⟨v', hd⟩
    · exact Or.inr ⟨v', List.mem_cons_of_mem _ hv'⟩

/-- Key analysis of the final result assembly of `extract_facebook_info`,
with the field values abstracted. -/
theorem keys_fb_final (a b c : String) (P : Prop) [Decidable P] (u k v : String)
    (hm : (k, v) ∈ (if P then
        dupdate [("facebook_page_name", a), ("facebook_likes", b),
          ("facebook_about", c)] (extract_facebook_from_url u)
      else [("facebook_page_name", a), ("facebook_likes", b),
        ("facebook_about", c)])) :
    k = "facebook_page_name" ∨ k = "facebook_likes" ∨ k = "facebook_about" := by
  split at hm
  · rcases mem_dupdate_keys _ _ k v hm with ⟨v', hv'⟩ | ⟨v', hv'⟩
    · simp only [List.mem_cons, List.mem_singleton, Prod.mk.injEq,
        List.not_mem_nil, or_false] at hv'
      rcases hv' with ⟨hk, _⟩ | ⟨hk, _⟩ | ⟨hk, _⟩
      · exact Or.inl hk
      · exact Or.inr (Or.inl hk)
      · exact Or.inr (Or.inr hk)
    · exact Or.inl (mem_fbu_keys u k v' hv')
  · simp only [List.mem_cons, List.mem_singleton, Prod.mk.injEq,
      List.not_mem_nil, or_false] at hm
    rcases hm with ⟨hk, _⟩ | ⟨hk, _⟩ | ⟨hk, _⟩
    · exact Or.inl hk
    · exact Or.inr (Or.inl hk)
    · exact Or.inr (Or.inr hk)

/-- Every key the Facebook extractor can emit is one of its three Facebook
fields. -/
theorem mem_extract_fb_keys (u : String) (dok : Bool) (s : Except String FbScrape)
    (k v : String) (hm : (k, v) ∈ extract_facebook_info u dok s) :
    k = "facebook_page_name" ∨ k = "facebook_likes" ∨ k = "facebook_about" := by
  unfold extract_facebook_info at hm
  by_cases h0 : u = ""
  · rw [if_pos h0] at hm
    simp only [List.mem_cons, List.mem_singleton, Prod.mk.injEq,
      List.not_mem_nil, or_false] at hm
    rcases hm with ⟨hk, _⟩ | ⟨hk, _⟩ | ⟨hk, _⟩
    · exact Or.inl hk
    · exact Or.inr (Or.inl hk)
    · exact Or.inr (Or.inr hk)
  · rw [if_neg h0] at hm
    by_cases hd : (!dok) = true
    · rw [if_pos hd] at hm
      exact Or.inl (mem_fbu_keys u k v hm)
    · rw [if_neg hd] at hm
      cases s with
      | error e =>
        dsimp only [] at hm
        exact Or.inl (mem_fbu_keys u k v hm)
      | ok sc =>
        dsimp only [] at hm
        by_cases hl : fbLoginTitle sc.title = true
        · rw [if_pos hl] at hm
          exact Or.inl (mem_fbu_keys u k v hm)
        · rw [if_neg hl] at hm
          by_cases hw : (match sc.bodyText with
              | some b => isSubstr "You must log in" b || isSubstr "See more of" b
              | none => false) = true
          · rw [if_pos hw] at hm
            exact Or.inl (mem_fbu_keys u k v hm)
          · rw [if_neg hw] at hm
            exact keys_fb_final _ _ _ _ u k v hm

/-- A field not named like any Facebook field and absent from the base
extraction mapping survives the merge-then-Facebook-merge sequence of
`process_company` unchanged. -/
theorem merge_keeps_field (cd1 : CompanyData) (info : KVs) (driverOk : Bool)
    (scrape : String → Except String FbScrape) (F : CField)
    (hinfo : ∀ v, (fname F, v) ∉ info)
    (hF : fname F ≠ "facebook_page_name" ∧ fname F ≠ "facebook_likes" ∧
      fname F ≠ "facebook_about") :
    getF (if (mergeInfo cd1 info).facebook_page = "" then mergeInfo cd1 info
      else mergeInfo (mergeInfo cd1 info)
        (extract_facebook_info (mergeInfo cd1 info).facebook_page driverOk
          (scrape (mergeInfo cd1 info).facebook_page))) F = getF cd1 F := by
  split
  · exact mergeInfo_pres_of_absent info cd1 F hinfo
  · have hfb : ∀ v, (fname F, v) ∉
        extract_facebook_info (mergeInfo cd1 info).facebook_page driverOk
          (scrape (mergeInfo cd1 info).facebook_page) := by
      intro v hm
      rcases mem_extract_fb_keys _ _ _ _ _ hm with hk | hk | hk
      · exact hF.1 hk
      · exact hF.2.1 hk
      · exact hF.2.2 hk
    rw [mergeInfo_pres_of_absent _ (mergeInfo cd1 info) F hfb]
    exact mergeInfo_pres_of_absent info cd1 F hinfo

/-- Claim C10: input identity is preserved by the pipeline — the returned
record's `company_name` equals the input name, and when the input website
is non-empty the returned record's `website` equals it exactly (resolution
is skipped and no extraction step writes those fields; the hypothesis
records that the base-extraction mapping carries no `company_name` or
`website` key, which `extract_company_info_with_ai` guarantees since it
only ever sets its nine extraction keys). -/
theorem claim_C10 (name website ts : String) (resolveStep : Except String String)
    (fetchStep : String → Except String String)
    (baseStep : String → String → Except String KVs)
    (driverOk : Bool) (scrape : String → Except String FbScrape) (elapsed : ℚ)
    (hbase : ∀ w c kvs, baseStep w c = Except.ok kvs →
      ∀ v, ("company_name", v) ∉ kvs ∧ ("website", v) ∉ kvs) :
    (process_company name website ts resolveStep fetchStep baseStep driverOk
      scrape elapsed).company_name = name ∧
    (website ≠ "" → (process_company name website ts resolveStep fetchStep baseStep
      driverOk scrape elapsed).website = website) := by
  cases hres : effResolve website resolveStep with
  | error m =>
    constructor
    · simp only [process_company, hres]
    · intro hweb
      simp only [process_company, hres]
  | ok w =>
    have hwid : website ≠ "" → w = website := by
      intro hweb
      rw [effResolve, if_neg hweb] at hres
      exact (Except.ok.inj hres).symm
    by_cases hw : w = ""
    · subst hw
      constructor
      · simp only [process_company, hres]
        rfl
      · intro hweb
        exact absurd ((hwid hweb).symm) hweb
    · cases hfetch : fetchStep w with
      | error m =>
        constructor
        · simp only [process_company, hres, if_neg hw, hfetch]
        · intro hweb
          simp only [process_company, hres, if_neg hw, hfetch]
          exact hwid hweb
      | ok html =>
        by_cases hh : html = ""
        · subst hh
          constructor
          · simp only [process_company, hres, if_neg hw, hfetch]
            rfl
          · intro hweb
            simp only [process_company, hres, if_neg hw, hfetch]
            exact hwid hweb
        · cases hb : baseStep w html with
          | error m =>
            constructor
            · simp only [process_company, hres, if_neg hw, hfetch, if_neg hh, hb]
            · intro hweb
              simp only [process_company, hres, if_neg hw, hfetch, if_neg hh, hb]
              exact hwid hweb
          | ok info =>
            have hinfo_cn : ∀ v, ("company_name", v) ∉ info := fun v =>
              (hbase w html info hb v).1
            have hinfo_ws : ∀ v, ("website", v) ∉ info := fun v =>
              (hbase w html info hb v).2
            constructor
            · simp only [process_company, hres, if_neg hw, hfetch, if_neg hh, hb]
              exact (merge_keeps_field _ info driverOk scrape CField.company_name
                hinfo_cn (by decide)).trans rfl
            · intro hweb
              simp only [process_company, hres, if_neg hw, hfetch, if_neg hh, hb]
              exact (merge_keeps_field _ info driverOk scrape CField.website
                hinfo_ws (by decide)).trans (hwid hweb)

/-- Witness for C10 at a concrete input: a non-empty input website and a
base extraction carrying only a phone number leave name and website
untouched. -/
theorem claim_C10_witness :
    (process_company "Acme" "https://acme.com" "ts" (Except.error "unused")
      (fun _ => Except.ok "<html>body</html>")
      (fun _ _ => Except.ok [("phone_number", "(646) 208-0199")]) true
      (fun _ => Except.error "nav") 1).company_name = "Acme" ∧
    (process_company "Acme" "https://acme.com" "ts" (Except.error "unused")
      (fun _ => Except.ok "<html>body</html>")
      (fun _ _ => Except.ok [("phone_number", "(646) 208-0199")]) true
      (fun _ => Except.error "nav") 1).website = "https://acme.com" := by
  have h := claim_C10 "Acme" "https://acme.com" "ts" (Except.error "unused")
    (fun _ => Except.ok "<html>body</html>")
    (fun _ _ => Except.ok [("phone_number", "(646) 208-0199")]) true
    (fun _ => Except.error "nav") 1
    (fun w c kvs hk v => by
      cases hk
      constructor
      · intro hm
        have hcn : "company_name" = "phone_number" :=
          congrArg Prod.fst (List.mem_singleton.mp hm)
        exact absurd hcn (by decide)
      · intro hm
        have hws : "website" = "phone_number" :=
          congrArg Prod.fst (List.mem_singleton.mp hm)
        exact absurd hws (by decide))
  exact ⟨h.1, h.2 (by decide)⟩

/-! ## Claim C8 -/

/-- Claim C8 (amended): `extract_company_info_with_ai` always returns a
mapping (the skeleton is a total function), and faults are absorbed
asymmetrically: a fault raised in one of the three helper sub-extractors
(address, contact, location) is invisible — the result equals the result
with those stages replaced by their caught versions, preserving every
field collected by the other stages and by the helper before its fault —
while a fault in the inline phone/email/social sections is caught at the
function boundary and yields the empty mapping, discarding the fields
collected before the fault. -/
theorem claim_C8 (pS eS sS aS cS lS : KVs → KVs ⊕ KVs) :
    (∀ d, pS [] = Sum.inr d → extract_info_faults pS eS sS aS cS lS = []) ∧
    (∀ d1 d, pS [] = Sum.inl d1 → eS d1 = Sum.inr d →
      extract_info_faults pS eS sS aS cS lS = []) ∧
    (∀ d1 d2 d, pS [] = Sum.inl d1 → eS d1 = Sum.inl d2 → sS d2 = Sum.inr d →
      extract_info_faults pS eS sS aS cS lS = []) ∧
    extract_info_faults pS eS sS aS cS lS =
      extract_info_faults pS eS sS (fun d => Sum.inl (absorbStage aS d))
        (fun d => Sum.inl (absorbStage cS d)) (fun d => Sum.inl (absorbStage lS d)) := by
  refine ⟨?_, ?_, ?_, ?_⟩
  · intro d hp
    unfold extract_info_faults
    rw [hp]
  · intro d1 d hp he
    unfold extract_info_faults
    rw [hp]
    dsimp only []
    rw [he]
  · intro d1 d2 d hp he hs
    unfold extract_info_faults
    rw [hp]
    dsimp only []
    rw [he]
    dsimp only []
    rw [hs]
  · unfold extract_info_faults
    cases pS [] with
    | inr d => rfl
    | inl d1 =>
      cases eS d1 with
      | inr d => rfl
      | inl d2 =>
        cases sS d2 with
        | inr d => rfl
        | inl d3 => rfl

/-- Witness for C8 at a concrete input: a social-section fault after the
phone section collected a value empties the result. -/
theorem claim_C8_witness :
    extract_info_faults (fun d => Sum.inl (dset d "phone_number" "(646) 208-0199"))
      Sum.inl (fun d => Sum.inr d) Sum.inl Sum.inl Sum.inl = [] :=
  (claim_C8 (fun d => Sum.inl (dset d "phone_number" "(646) 208-0199"))
      Sum.inl (fun d => Sum.inr d) Sum.inl Sum.inl Sum.inl).2.2.1
    (dset [] "phone_number" "(646) 208-0199")
    (dset [] "phone_number" "(646) 208-0199")
    (dset [] "phone_number" "(646) 208-0199") rfl rfl rfl

/-- Counterexample to claim C8 as stated: the phone heuristic collected
`phone_number` before the social section raised, yet the returned mapping
does not contain it — the function-boundary `except` returns the empty
dict instead of what was collected so far. -/
theorem claim_C8_counterexample :
    dget (extract_info_faults
        (fun d => Sum.inl (dset d "phone_number" "(212) 208-0199"))
        Sum.inl (fun d => Sum.inr d) Sum.inl Sum.inl Sum.inl) "phone_number" = none ∧
    dget (dset [] "phone_number" "(212) 208-0199") "phone_number" =
      some "(212) 208-0199" := by
  constructor
  · rfl
  · decide
